import Mathlib

/-!
Verification of the Sylphie storage core (sylphie_utils::locks,
sylphie_utils::cache, sylphie_database::{migrations, connection, kvs,
interner}) against its natural-language specification.

The Rust source is shallowly embedded: SQL tables and DashMaps become
association lists, `u32`/`u64` counters become `Nat` (they are only ever
incremented a handful of times, so overflow is unreachable and not
modelled), async functions become pure state-passing functions over the
states they touch, and fallible operations return `Except String`.
Wall-clock values (`Instant::now`) and log output (`warn!`/`debug!`) are
not modelled.  Where a definition deviates from a line-by-line reading of
the source, a comment at the definition explains the deviation.
-/

set_option autoImplicit false

namespace Sylphie

/-! ## Association-list maps

`DashMap` and SQL tables keyed by a primary key are embedded as
association lists with map semantics: `ainsert` replaces any previous
binding (SQL `REPLACE INTO`, `DashMap::insert`), `aerase` removes the
binding (`DELETE`, `DashMap::remove`), `alookup` finds the binding
(`SELECT ... WHERE key = ?`, `DashMap::get`). -/

variable {K V A : Type}

def alookup [DecidableEq K] : List (K × V) → K → Option V
  | [], _ => none
  | (k', v) :: rest, k => if k' = k then some v else alookup rest k

def aerase [DecidableEq K] : List (K × V) → K → List (K × V)
  | [], _ => []
  | (k', v) :: rest, k => if k' = k then aerase rest k else (k', v) :: aerase rest k

def ainsert [DecidableEq K] (m : List (K × V)) (k : K) (v : V) : List (K × V) :=
  (k, v) :: aerase m k

/-- The keys of the map are pairwise distinct (true for `DashMap` and for
tables with a primary key; all our operations preserve it). -/
def KeysNodup (m : List (K × V)) : Prop := (m.map Prod.fst).Nodup

/-! ## LockSet (sylphie_utils/src/locks.rs)

`LockSet<K>` holds `locks: DashMap<K, Vec<Waker>, FxBuildHasher>`.  The
state is embedded as an association list from keys to waker queues;
wakers are identified by `Nat` task identifiers.  A `LockSetGuard` holds
no data beyond its key, so "a guard is alive" is purely a fact about the
program, not about the map. -/

def LockSetState (K : Type) := List (K × List Nat)

namespace LockSetState

/-- Rust `LockSet::try_lock` (locks.rs lines 24-31): `entry(key).or_default()`
inserts an empty waker queue when the key is absent, then the lock is
taken exactly when that queue `is_empty()`.  Returns `true` when a guard
is produced (`Some(LockSetGuard ...)`). -/
def try_lock [DecidableEq K] (s : LockSetState K) (k : K) : Bool × LockSetState K :=
  match alookup s k with
  | none => (true, ainsert s k [])
  | some entry => if entry.isEmpty then (true, s) else (false, s)

/-- Rust `WaitForLockSetFut::poll` (locks.rs lines 45-56): same `or_default`
check; on the pending path the task's waker is pushed onto the queue. -/
def lock_poll [DecidableEq K] (s : LockSetState K) (k : K) (waker : Nat) :
    Bool × LockSetState K :=
  match alookup s k with
  | none => (true, ainsert s k [])
  | some entry =>
    if entry.isEmpty then (true, s)
    else (false, ainsert s k (entry ++ [waker]))

/-- Rust `LockSetGuard::drop` (locks.rs lines 64-71): `locks.remove(&key).unwrap()`;
returns the woken wakers.  `none` models the `unwrap` panic when the entry
is already gone. -/
def guard_drop [DecidableEq K] (s : LockSetState K) (k : K) :
    Option (LockSetState K × List Nat) :=
  match alookup s k with
  | none => none
  | some ws => some (aerase s k, ws)

/-- Release of a guard in a run where the entry is known to exist
(the panic branch falls back to the unchanged state). -/
def lock_release [DecidableEq K] (s : LockSetState K) (k : K) : LockSetState K :=
  match guard_drop s k with
  | some (s', _) => s'
  | none => s

/-- Rust `LockSet::lock(key).await` in a sequential run: the single running
task polls once and acquires immediately (the suspended case cannot arise
with one task). -/
def lock_acquire [DecidableEq K] (s : LockSetState K) (k : K) : LockSetState K :=
  (lock_poll s k 0).2

end LockSetState

/-! ## Connection pool bridge (sylphie_database/src/connection/mod.rs) -/

/-- Rust `BlockingWrapper<T>`: the blocking handle; `inner` is `None` after the
handle has been taken/poisoned by a mid-transaction drop
(connection/mod.rs lines 17-49). -/
structure BlockingWrapper (T : Type) where
  inner : Option T

/-- Rust `ConnectionManager::has_broken` (connection/mod.rs lines 96-98):
literally `conn.inner.is_some()`. -/
def has_broken {T : Type} (conn : BlockingWrapper T) : Bool :=
  conn.inner.isSome

/-- Modelled from the spec: the pool itself (`mod pool`, referenced from
connection/mod.rs line 14 but absent from the source tree) recycles a
returned connection exactly when `has_broken` reports `false`; per spec
section 4.1 "a broken/poisoned connection is dropped rather than
recycled". -/
def pool_recycles {T : Type} (conn : BlockingWrapper T) : Bool :=
  !(has_broken conn)

/-! ## LruCache (sylphie_utils/src/cache.rs)

`LruCache<K, V>` holds an `LruData` with a fixed slot vector
`cache_data: Vec<ArcSwapOption<LruEntry>>`, a key index
`key_lookup: DashMap<K, usize>` and a `plru::DynamicCache`.

The `plru` crate (an external dependency) only ever influences which
slot `lru.replace()` proposes as the eviction victim; it is embedded as
an oracle `victims` listing the successive victim proposals (reduced
modulo the line count, as `plru` always proposes a valid line);
`lru.touch` is a no-op on this oracle.  The `last_touched` field is
written from `Instant::now` and never read anywhere in cache.rs, so
wall-clock timestamps are left out of the entry. -/

/-- One cache line (`LruEntry<K, V>` minus the never-read timestamp). -/
structure LruEntry (K V : Type) where
  key : K
  value : V
  isBusy : Bool
deriving DecidableEq

structure LruData (K V : Type) where
  lines : Nat
  cacheData : List (Option (LruEntry K V))
  keyLookup : List (K × Nat)
  victims : List Nat
deriving DecidableEq

namespace LruData

variable {K V : Type}

/-- Rust `LruCache::new(lines)` / `LruData::new(lines)` with a given victim
oracle for the `plru` cache. -/
def new (lines : Nat) (victims : List Nat) : LruData K V :=
  { lines := lines
    cacheData := List.replicate lines none
    keyLookup := []
    victims := victims }

/-- Rust `lock.lru.replace()`: consume the next proposal of the victim
oracle. -/
def replace (d : LruData K V) : Nat × LruData K V :=
  match d.victims with
  | [] => (0 % d.lines, d)
  | v :: rest => (v % d.lines, { d with victims := rest })

/-- Rust `lock.cache_data[i].load()` (out-of-range reads cannot happen in the
source; they read as an empty line here). -/
def line (d : LruData K V) (i : Nat) : Option (LruEntry K V) :=
  d.cacheData.getD i none

/-- The transient `is_busy.compare_and_swap(false, true)` marking of an
occupied line. -/
def markBusy (d : LruData K V) (i : Nat) : LruData K V :=
  match d.line i with
  | some e => { d with cacheData := d.cacheData.set i (some { e with isBusy := true }) }
  | none => d

/-- Rust `lock.cache_data[i].store(entry)`. -/
def setLine (d : LruData K V) (i : Nat) (e : Option (LruEntry K V)) : LruData K V :=
  { d with cacheData := d.cacheData.set i e }

/-- Rust `LruCache::check_cached` (cache.rs lines 58-75).  The `touch` calls
only update the never-read timestamp and the plru oracle, so the state is
unchanged. -/
def check_cached [DecidableEq K] (d : LruData K V) (key : K) : Option V :=
  match alookup d.keyLookup key with
  | none => none
  | some lineNo =>
    match d.line lineNo with
    | none => none
    | some l => if l.key = key then some l.value else none

/-- The `fixed_line_no` computation of `try_insert_loop` (cache.rs lines
80-110): `none` encodes the early return (key already cached and
`do_replace` is false), `some fixed` continues with the optional in-place
line (whose busy flag the CAS has set). -/
def try_insert_fixed [DecidableEq K] (d : LruData K V) (key : K) (doReplace : Bool) :
    Option (Option Nat) :=
  match alookup d.keyLookup key with
  | some lineNo =>
    match d.line lineNo with
    | some l =>
      if l.key = key then
        if !doReplace then none
        else if !l.isBusy then some (some lineNo)
        else some none
      else some none
    | none => some none
  | none => some none

/-- The `already_exists = true` tail of `try_insert_loop` (cache.rs lines
128-132): the in-place line was marked busy by the CAS, the new entry is
stored over it, and the final `compare_and_swap(true, false)` leaves the
stored entry's busy flag false. -/
def install_existing (d : LruData K V) (lineNo : Nat)
    (entry : Option (LruEntry K V)) : LruData K V :=
  (d.markBusy lineNo).setLine lineNo (entry.map fun e => { e with isBusy := false })

/-- The `already_exists = false` tail for an occupied, non-busy victim
line (cache.rs lines 117-135): mark it busy, drop its key from the index,
store the new entry and index it. -/
def install_victim_occupied [DecidableEq K] (d : LruData K V) (key : K)
    (entry : Option (LruEntry K V)) (lineNo : Nat) (occKey : K) : LruData K V :=
  let d2 := d.markBusy lineNo
  let d3 := { d2 with keyLookup := aerase d2.keyLookup occKey }
  let d4 := d3.setLine lineNo entry
  { d4 with keyLookup := ainsert d4.keyLookup key lineNo }

/-- The `already_exists = false` tail for an empty victim line (cache.rs
lines 117-135 with no occupant). -/
def install_victim_empty [DecidableEq K] (d : LruData K V) (key : K)
    (entry : Option (LruEntry K V)) (lineNo : Nat) : LruData K V :=
  let d2 := d.setLine lineNo entry
  { d2 with keyLookup := ainsert d2.keyLookup key lineNo }

/-- Rust `LruCache::try_insert_loop` (cache.rs lines 77-136).  The source
retries forever when every proposed victim line is busy; the recursion is
fuelled here, returning the state unchanged on exhaustion (callers pass
ample fuel; in sequential executions a busy victim can only be a line
orphaned by `invalidate_cache`). -/
def try_insert_loop [DecidableEq K] :
    Nat → K → Option (LruEntry K V) → Bool → LruData K V → LruData K V
  | 0, _, _, _, d => d
  | fuel + 1, key, entry, doReplace, d =>
    match try_insert_fixed d key doReplace with
    | none => d
    | some (some lineNo) => install_existing d lineNo entry
    | some none =>
      let lineNo := (d.replace).1
      let d1 := (d.replace).2
      match d1.line lineNo with
      | some l =>
        if l.isBusy then
          -- the victim is being replaced by someone else: retry
          try_insert_loop fuel key entry doReplace d1
        else install_victim_occupied d1 key entry lineNo l.key
      | none => install_victim_empty d1 key entry lineNo

/-- Rust `LruCache::insert_cache` (cache.rs lines 137-146). -/
def insert_cache [DecidableEq K] (key : K) (value : V) (doReplace : Bool)
    (d : LruData K V) : LruData K V :=
  try_insert_loop (d.lines + 1) key
    (some { key := key, value := value, isBusy := false }) doReplace d

/-- Rust `LruCache::invalidate_cache` (cache.rs lines 147-164): the line stays
resident (and permanently busy); only its index entry is removed. -/
def invalidate_cache [DecidableEq K] (d : LruData K V) (key : K) :
    Bool × LruData K V :=
  match alookup d.keyLookup key with
  | none => (true, d)
  | some lineNo =>
    match d.line lineNo with
    | none => (true, d)
    | some l =>
      if l.isBusy then (false, d)
      else
        let d1 := markBusy d lineNo
        (true, { d1 with keyLookup := aerase d1.keyLookup l.key })

/-- Rust `LruCache::cached` (cache.rs lines 167-175).  `make_new` runs only on
a miss; every `make_new` in the repository is a read-only database query,
so its outcome is passed in as a value. -/
def cached [DecidableEq K] (d : LruData K V) (key : K)
    (makeNew : Except String V) : Except String V × LruData K V :=
  match check_cached d key with
  | some v => (.ok v, d)
  | none =>
    match makeNew with
    | .error e => (.error e, d)
    | .ok value => (.ok value, insert_cache key value false d)

/-- Rust `LruCache::insert` (cache.rs lines 178-180). -/
def insert [DecidableEq K] (d : LruData K V) (key : K) (value : V) : LruData K V :=
  insert_cache key value true d

/-- Rust `LruCache::invalidate` (cache.rs lines 183-185). -/
def invalidate [DecidableEq K] (d : LruData K V) (key : K) : LruData K V :=
  (invalidate_cache d key).2

/-- Rust `LruCache::cached_async` (cache.rs lines 190-200): identical to
`cached` in a sequential run (the future is awaited only on a miss). -/
def cached_async [DecidableEq K] (d : LruData K V) (key : K)
    (makeNew : Except String V) : Except String V × LruData K V :=
  cached d key makeNew

end LruData

/-- The operations the cache exposes, for quantifying over arbitrary
usage sequences. -/
inductive CacheOp (K V : Type) where
  | insertOp (k : K) (v : V)
  | cachedOp (k : K) (res : Except String V)
  | cachedAsyncOp (k : K) (res : Except String V)
  | invalidateOp (k : K)

def applyOp {K V : Type} [DecidableEq K] (d : LruData K V) : CacheOp K V → LruData K V
  | .insertOp k v => d.insert k v
  | .cachedOp k r => (d.cached k r).2
  | .cachedAsyncOp k r => (d.cached_async k r).2
  | .invalidateOp k => d.invalidate k

def runOps {K V : Type} [DecidableEq K] (d : LruData K V) (ops : List (CacheOp K V)) :
    LruData K V :=
  ops.foldl applyOp d

/-- An index entry `p = (key, line_no)` is backed by an occupied,
non-busy line holding exactly that key. -/
def lineOk {K V : Type} (cd : List (Option (LruEntry K V))) (p : K × Nat) : Prop :=
  match cd.getD p.2 none with
  | some l => l.key = p.1 ∧ l.isBusy = false
  | none => False

/-- The cache's structural invariant: the slot vector has exactly `lines`
slots, index keys are distinct, and every index entry points at an
in-range, occupied, non-busy line holding exactly that key. -/
def CacheInv {K V : Type} [DecidableEq K] (d : LruData K V) : Prop :=
  0 < d.lines ∧
  d.cacheData.length = d.lines ∧
  KeysNodup d.keyLookup ∧
  ∀ p ∈ d.keyLookup, p.2 < d.lines ∧ lineOk d.cacheData p


/-! ## Serialization (sylphie_database/src/serializable.rs)

A `DbSerializable` value type, embedded as a first-class dictionary.  The
blob type `B` stands for the `SerializeValue` produced by the type's
`SerializationFormat`; serializer failures do not occur for the formats
the repository instantiates, so `serialize` is total, and the
deserialize-serialize round trip is the defining contract of a
serialization format (spec section 6 stores values "as opaque serialized
blobs"). -/
structure DbSerializableInst (V B : Type) where
  /-- Rust `DbSerializable::ID`. -/
  idStr : String
  /-- Rust `DbSerializable::SCHEMA_VERSION`. -/
  schemaVersion : Nat
  /-- Rust `Format::serialize`. -/
  serialize : V → B
  /-- Rust `Format::deserialize`. -/
  deserialize : B → Except String V
  /-- Rust `DbSerializable::can_migrate_from`. -/
  can_migrate_from : String → Nat → Bool
  /-- Rust `DbSerializable::do_migration`. -/
  do_migration : String → Nat → B → Except String V
  /-- The round-trip law of a serialization format. -/
  deserialize_serialize : ∀ v, deserialize (serialize v) = Except.ok v

/-! ## KVS store (sylphie/sylphie_database/src/kvs.rs) -/

/-- One row of a KVS table:
`(key BLOB PRIMARY KEY, value BLOB, value_schema_id, value_schema_ver)`
(kvs.rs lines 151-158); the key blob is the association-list key. -/
structure KvsRow (BV : Type) where
  value : BV
  valueSchemaId : Nat
  valueSchemaVer : Nat
deriving DecidableEq

/-- The per-store data `BaseKvsStoreInfo` carries into every query: the
interned `StringId` of `V::ID` (`value_id`) and a view of the string
interner's reverse table used by `InternerLock::get_str_id_rev`
(interner rows are append-only, so the reverse lookup is a stable map;
its LRU layer adds nothing observable and is elided here). -/
structure BaseKvsStoreInfo where
  value_id : Nat
  interner_rev : List (Nat × String)

/-- Rust `InternerLock::get_str_id_rev` as seen through `BaseKvsStoreInfo`:
a missing ID is the internal error raised by `rev_intern`
(interner.rs line 123). -/
def get_str_id_rev (info : BaseKvsStoreInfo) (idv : Nat) : Except String String :=
  match alookup info.interner_rev idv with
  | some s => Except.ok s
  | none => Except.error "Invalid interned value."

section Kvs

variable {K V BK BV : Type}

/-- Rust `KvsStoreQueries::store_value` (kvs.rs lines 327-339): the
`REPLACE INTO` upsert keyed on the serialized key. -/
def store_value [DecidableEq BK] (instK : DbSerializableInst K BK)
    (instV : DbSerializableInst V BV) (db : List (BK × KvsRow BV))
    (key : K) (value : V) (value_schema_id : Nat) : List (BK × KvsRow BV) :=
  ainsert db (instK.serialize key)
    { value := instV.serialize value
      valueSchemaId := value_schema_id
      valueSchemaVer := instV.schemaVersion }

/-- Rust `KvsStoreQueries::delete_value` (kvs.rs lines 340-348). -/
def delete_value [DecidableEq BK] (instK : DbSerializableInst K BK)
    (db : List (BK × KvsRow BV)) (key : K) : List (BK × KvsRow BV) :=
  aerase db (instK.serialize key)

/-- Rust `KvsStoreQueries::load_value` (kvs.rs lines 349-376): row lookup,
schema-identity check, declared migration, and the
mandatory/optional-migration split. -/
def load_value [DecidableEq BK] (instK : DbSerializableInst K BK)
    (instV : DbSerializableInst V BV) (db : List (BK × KvsRow BV)) (key : K)
    (store_info : BaseKvsStoreInfo) (value_schema_id : Nat)
    (is_migration_mandatory : Bool) : Except String (Option V) :=
  match alookup db (instK.serialize key) with
  | none => Except.ok none
  | some row =>
    if row.valueSchemaId = value_schema_id ∧ instV.schemaVersion = row.valueSchemaVer
    then (instV.deserialize row.value).map some
    else
      match get_str_id_rev store_info row.valueSchemaId with
      | Except.error e => Except.error e
      | Except.ok schema_name =>
        if instV.can_migrate_from schema_name row.valueSchemaVer then
          (instV.do_migration schema_name row.valueSchemaVer row.value).map some
        else if !is_migration_mandatory then Except.ok none
        else Except.error "Could not migrate value to current schema version!"

/-- The state a `BaseKvsStore<K, V, T>` touches: its SQL table, its
`LruCache<K, Option<V>>` and its `LockSet<K>`. -/
structure KvsState (K V BK BV : Type) where
  db : List (BK × KvsRow BV)
  cache : LruData K (Option V)
  locks : LockSetState K

/-- Rust `BaseKvsStore::get_db` (kvs.rs lines 420-424): a fresh read through
the pool with `is_migration_mandatory = !T::IS_TRANSIENT`. -/
def get_db [DecidableEq BK] (instK : DbSerializableInst K BK)
    (instV : DbSerializableInst V BV) (info : BaseKvsStoreInfo)
    (isTransient : Bool) (s : KvsState K V BK BV) (k : K) :
    Except String (Option V) :=
  load_value instK instV s.db k info info.value_id (!isTransient)

/-- Rust `BaseKvsStore::get_0` (kvs.rs lines 425-427):
`cache.cached_async(k, get_db(data, k))`. -/
def get_0 [DecidableEq K] [DecidableEq BK] (instK : DbSerializableInst K BK)
    (instV : DbSerializableInst V BV) (info : BaseKvsStoreInfo)
    (isTransient : Bool) (s : KvsState K V BK BV) (k : K) :
    Except String (Option V) × KvsState K V BK BV :=
  ((s.cache.cached_async k (get_db instK instV info isTransient s k)).1,
   { s with cache := (s.cache.cached_async k (get_db instK instV info isTransient s k)).2 })

/-- Rust `BaseKvsStore::set_0` (kvs.rs lines 428-432): write the row, then
`cache.insert(k, Some(v))`. -/
def set_0 [DecidableEq K] [DecidableEq BK] (instK : DbSerializableInst K BK)
    (instV : DbSerializableInst V BV) (info : BaseKvsStoreInfo)
    (s : KvsState K V BK BV) (k : K) (v : V) :
    KvsState K V BK BV :=
  { s with db := store_value instK instV s.db k v info.value_id
           cache := s.cache.insert k (some v) }

/-- Rust `BaseKvsStore::remove_0` (kvs.rs lines 433-437): delete the row, then
`cache.insert(k, None)`. -/
def remove_0 [DecidableEq K] [DecidableEq BK] (instK : DbSerializableInst K BK)
    (s : KvsState K V BK BV) (k : K) : KvsState K V BK BV :=
  { s with db := delete_value instK s.db k
           cache := s.cache.insert k none }

/-- Rust `BaseKvsStore::get` (kvs.rs lines 455-458). -/
def get [DecidableEq K] [DecidableEq BK] (instK : DbSerializableInst K BK)
    (instV : DbSerializableInst V BV) (info : BaseKvsStoreInfo)
    (isTransient : Bool) (s : KvsState K V BK BV) (k : K) :
    Except String (Option V) × KvsState K V BK BV :=
  get_0 instK instV info isTransient s k

/-- Rust `BaseKvsStore::set` (kvs.rs lines 460-466): take the key's lock, run
`set_0`, drop the guard. -/
def set [DecidableEq K] [DecidableEq BK] (instK : DbSerializableInst K BK)
    (instV : DbSerializableInst V BV) (info : BaseKvsStoreInfo)
    (s : KvsState K V BK BV) (k : K) (v : V) :
    KvsState K V BK BV :=
  let s1 := { s with locks := s.locks.lock_acquire k }
  let s2 := set_0 instK instV info s1 k v
  { s2 with locks := s2.locks.lock_release k }

/-- Rust `BaseKvsStore::remove` (kvs.rs lines 468-474). -/
def remove [DecidableEq K] [DecidableEq BK] (instK : DbSerializableInst K BK)
    (s : KvsState K V BK BV) (k : K) : KvsState K V BK BV :=
  let s1 := { s with locks := s.locks.lock_acquire k }
  let s2 := remove_0 instK s1 k
  { s2 with locks := s2.locks.lock_release k }

/-- Rust `KvsMutGuard` (kvs.rs lines 546-579): the held key, the value the
caller mutates through `Deref`/`DerefMut`, and (implicitly) the key's
lock guard. -/
structure KvsMutGuard (K V : Type) where
  ul_key : K
  ul_value : V

/-- A `DerefMut` mutation of the guarded value. -/
def KvsMutGuard.setValue {K V : Type} (g : KvsMutGuard K V) (v : V) :
    KvsMutGuard K V :=
  { g with ul_value := v }

/-- Rust `BaseKvsStore::get_mut_0` (kvs.rs lines 438-453): the lock is already
held; load the current value or materialize the default. -/
def get_mut_0 [DecidableEq K] [DecidableEq BK] (instK : DbSerializableInst K BK)
    (instV : DbSerializableInst V BV) (info : BaseKvsStoreInfo)
    (isTransient : Bool) (s : KvsState K V BK BV) (k : K)
    (make_default : Except String V) :
    Except String (KvsMutGuard K V) × KvsState K V BK BV :=
  match get_0 instK instV info isTransient s k with
  | (Except.error e, s1) => (Except.error e, s1)
  | (Except.ok (some v), s1) => (Except.ok { ul_key := k, ul_value := v }, s1)
  | (Except.ok none, s1) =>
    match make_default with
    | Except.ok v => (Except.ok { ul_key := k, ul_value := v }, s1)
    | Except.error e => (Except.error e, s1)

/-- Rust `BaseKvsStore::try_get_mut` (kvs.rs lines 499-506): `try_lock`, and
`None` when it fails. -/
def try_get_mut [DecidableEq K] [DecidableEq BK] (instK : DbSerializableInst K BK)
    (instV : DbSerializableInst V BV) (info : BaseKvsStoreInfo)
    (isTransient : Bool) (s : KvsState K V BK BV) (k : K)
    (make_default : Except String V) :
    Except String (Option (KvsMutGuard K V)) × KvsState K V BK BV :=
  match s.locks.try_lock k with
  | (true, l1) =>
    match get_mut_0 instK instV info isTransient { s with locks := l1 } k
        make_default with
    | (Except.ok g, s1) => (Except.ok (some g), s1)
    | (Except.error e, s1) => (Except.error e, s1)
  | (false, l1) => (Except.ok none, { s with locks := l1 })

/-- Dropping a `KvsMutGuard` without `commit()`: the guard's fields are
dropped; the only effect is `LockSetGuard::drop` releasing the key's
lock. -/
def KvsMutGuard.dropGuard [DecidableEq K] {V BK BV : Type}
    (s : KvsState K V BK BV) (g : KvsMutGuard K V) :
    KvsState K V BK BV :=
  { s with locks := s.locks.lock_release g.ul_key }

/-- Rust `KvsMutGuard::commit` (kvs.rs lines 556-558): `set_0` on the guarded
key and value, then the guard (and its lock) is dropped. -/
def KvsMutGuard.commit [DecidableEq K] [DecidableEq BK]
    {V BV : Type} (instK : DbSerializableInst K BK)
    (instV : DbSerializableInst V BV) (info : BaseKvsStoreInfo)
    (s : KvsState K V BK BV) (g : KvsMutGuard K V) :
    KvsState K V BK BV :=
  let s1 := set_0 instK instV info s g.ul_key g.ul_value
  { s1 with locks := s1.locks.lock_release g.ul_key }

end Kvs

/-! ## Migration runner (sylphie_database/src/migrations.rs)

The database a migration run touches is its tracking table(s) plus the
schema objects the scripts create or alter; the latter are abstracted as
a state of type `σ`, and running a script's SQL
(`transaction.execute_batch(script.script_data)`) is an effect
`σ → Except String σ`.  `BEGIN EXCLUSIVE TRANSACTION` snapshots the
state; only `COMMIT` publishes it, and any drop of the `DbTransaction`
without a commit rolls back to the snapshot
(`DbTransaction::drop` → `DbOpsData::rollback_in_drop`,
connection/mod.rs lines 155-176 and 372-377). -/

/-- Rust `MigrationScriptData` (migrations.rs lines 10-24).  `from`/`to` are
Lean keywords, hence `from_version`/`to_version`. -/
structure MigrationScriptData (σ : Type) where
  from_version : Nat
  to_version : Nat
  script_name : String
  script_data : σ → Except String σ

/-- Rust `MigrationData` (migrations.rs lines 27-46). -/
structure MigrationData (σ : Type) where
  migration_id : String
  migration_set_name : String
  is_transient : Bool
  target_version : Nat
  scripts : List (MigrationScriptData σ)

/-- The persisted database state: the two tracking tables
(`sylphie_db_migrations_tracking` and its `transient.` twin) and the
schema state. -/
structure MigrationDb (σ : Type) where
  tracking : List (String × Nat)
  transient_tracking : List (String × Nat)
  schema : σ
deriving DecidableEq

/-- Rust `query_migrations_table_sql` (migrations.rs lines 188-196). -/
def query_migrations_table {σ : Type} (db : MigrationDb σ) (is_transient : Bool)
    (idv : String) : Option Nat :=
  alookup (if is_transient then db.transient_tracking else db.tracking) idv

/-- Rust `replace_migrations_table_sql` (migrations.rs lines 197-206). -/
def replace_migrations_table {σ : Type} (db : MigrationDb σ) (is_transient : Bool)
    (idv : String) (ver : Nat) : MigrationDb σ :=
  if is_transient then
    { db with transient_tracking := ainsert db.transient_tracking idv ver }
  else
    { db with tracking := ainsert db.tracking idv ver }

/-- Rust `MigrationManagerState` (migrations.rs lines 104-107).  The
`repeat_transaction_watch` values only feed the collision warning, so
only the seen ids are kept. -/
structure MigrationManagerState where
  tables_created : Bool
  repeat_transaction_watch : List String

/-- Rust `MigrationManagerState::create_migrations_table` (migrations.rs lines
109-116): `CREATE TABLE IF NOT EXISTS` for both tracking tables; the
tables are total maps in this embedding, so only the flag changes. -/
def create_migrations_table {σ : Type} (st : MigrationManagerState)
    (db : MigrationDb σ) : MigrationManagerState × MigrationDb σ :=
  if st.tables_created then (st, db)
  else ({ st with tables_created := true }, db)

/-- The `for script in migration.scripts` loop (migrations.rs lines
147-161), run against the transaction state `t`: a script whose `from`
matches the running version is executed, the tracking row is replaced
with its `to`, and the running version advances. -/
def run_scripts {σ : Type} (idv : String) (is_transient : Bool) :
    List (MigrationScriptData σ) → Nat → MigrationDb σ →
      Except String (Nat × MigrationDb σ)
  | [], current, t => Except.ok (current, t)
  | script :: rest, current, t =>
    if current = script.from_version then
      match script.script_data t.schema with
      | Except.error e => Except.error e
      | Except.ok sch =>
        run_scripts idv is_transient rest script.to_version
          (replace_migrations_table { t with schema := sch } is_transient idv
            script.to_version)
    else run_scripts idv is_transient rest current t

/-- Rust `MigrationManagerState::execute_migration` (migrations.rs lines
118-175).  The returned database is the state persisted after the call:
the transaction state on `COMMIT`, the original snapshot on any error
(`?` or `bail!` drops the transaction, which rolls back). -/
def execute_migration {σ : Type} (st : MigrationManagerState) (db : MigrationDb σ)
    (m : MigrationData σ) :
    MigrationManagerState × Except String Unit × MigrationDb σ :=
  let stdb := create_migrations_table st db
  let st1 := stdb.1
  let start_version := (query_migrations_table db m.is_transient m.migration_id).getD 0
  match run_scripts m.migration_id m.is_transient m.scripts start_version db with
  | Except.error e => (st1, Except.error e, db)
  | Except.ok (current, t) =>
    if m.target_version ≠ current then
      (st1, Except.error "Could not successfully apply migration.", db)
    else
      ({ st1 with repeat_transaction_watch :=
            m.migration_id :: st1.repeat_transaction_watch },
       Except.ok (), t)

/-- Following the spec's words (section 4.2): the scripts actually
applied are exactly those selected in script-list order whose `from`
equals the running version, each advancing the running version to its
`to`; this computes that selection and the final running version,
independently of script success. -/
def spec_selected_scripts {σ : Type} :
    List (MigrationScriptData σ) → Nat → List (MigrationScriptData σ) × Nat
  | [], v => ([], v)
  | s :: rest, v =>
    if v = s.from_version then
      ((s :: (spec_selected_scripts rest s.to_version).1),
       (spec_selected_scripts rest s.to_version).2)
    else spec_selected_scripts rest v

/-- Following the spec's words (section 4.2): apply a list of scripts in
order, persisting the tracked version after each. -/
def spec_apply_scripts {σ : Type} (idv : String) (is_transient : Bool) :
    List (MigrationScriptData σ) → MigrationDb σ → Except String (MigrationDb σ)
  | [], t => Except.ok t
  | s :: rest, t =>
    match s.script_data t.schema with
    | Except.error e => Except.error e
    | Except.ok sch =>
      spec_apply_scripts idv is_transient rest
        (replace_migrations_table { t with schema := sch } is_transient idv
          s.to_version)

/-- Following the spec's words (section 4.2): read the tracked version
(default 0), apply exactly the selected chain, commit if and only if it
carries the version to the target, and otherwise roll the whole
transaction back and report a fatal error. -/
def spec_execute_migration {σ : Type} (db : MigrationDb σ) (m : MigrationData σ) :
    Except String Unit × MigrationDb σ :=
  let start := (query_migrations_table db m.is_transient m.migration_id).getD 0
  match spec_apply_scripts m.migration_id m.is_transient
      (spec_selected_scripts m.scripts start).1 db with
  | Except.error e => (Except.error e, db)
  | Except.ok t =>
    if (spec_selected_scripts m.scripts start).2 = m.target_version then
      (Except.ok (), t)
    else (Except.error "Could not successfully apply migration.", db)

/-! ## Interner (sylphie_database/src/interner.rs)

One `InternerHive<T>` with its slice of the `sylphie_db_interner` table.
The table's SQL schema lives in a migration file that is not part of the
source tree; per spec section 3 an interned entry is
`(hive_id, serialized_name) → integer_id`, so the hive's rows are a list
of `(name, int_id)` pairs to which `INSERT INTO` prepends. -/
structure HiveState (T B : Type) where
  hive_id : Nat
  rows : List (B × Nat)
  cache : LruData T Nat
  rev_cache : LruData Nat T
  new_value_lock : LockSetState T
  max_value : Nat

/-- Rust `SELECT MAX(int_id) ... WHERE hive = ?` over the hive's rows
(`NULL`, i.e. `None`, for an empty hive). -/
def maxIntId {B : Type} (rows : List (B × Nat)) : Nat :=
  (rows.map Prod.snd).foldr max 0

/-- Rust `InternerHive::from_db` (interner.rs lines 43-55): caches of 512
lines, and the ID counter seeded with `max(existing) + 1` (the query's
`NULL` becomes 0 via `flatten().unwrap_or(0)`).  `cvs`/`rvs` are the
plru victim oracles of the two fresh caches. -/
def from_db {T B : Type} (hive_id : Nat) (rows : List (B × Nat))
    (cvs rvs : List Nat) : HiveState T B :=
  { hive_id := hive_id
    rows := rows
    cache := LruData.new 512 cvs
    rev_cache := LruData.new 512 rvs
    new_value_lock := []
    max_value := maxIntId rows + 1 }

/-- Rust `InternerHive::intern_query` (interner.rs lines 87-95):
`cached_async` over the row query, `unwrap_or(0)` on a miss — so 0 is
the (cached!) not-yet-interned sentinel. -/
def intern_query {T B : Type} [DecidableEq T] [DecidableEq B] (ser : T → B)
    (h : HiveState T B) (value : T) : Nat × HiveState T B :=
  match h.cache.cached_async value
      (Except.ok ((alookup h.rows (ser value)).getD 0)) with
  | (Except.ok n, c') => (n, { h with cache := c' })
  | (Except.error _, c') => (0, { h with cache := c' })

/-- Rust `InternerHive::intern` (interner.rs lines 96-115): query; if the
sentinel came back, lock the value, re-query under the lock, and only
then allocate `fetch_add` a fresh ID, insert the row and refresh the
cache.  The `_guard` drops at the end of each path. -/
def intern {T B : Type} [DecidableEq T] [DecidableEq B] (ser : T → B)
    (h : HiveState T B) (value : T) : Nat × HiveState T B :=
  match intern_query ser h value with
  | (idv, h1) =>
    if idv = 0 then
      let h2 := { h1 with new_value_lock := h1.new_value_lock.lock_acquire value }
      match intern_query ser h2 value with
      | (current_val, h3) =>
        if current_val ≠ 0 then
          (current_val, { h3 with new_value_lock := h3.new_value_lock.lock_release value })
        else
          let new_id := h3.max_value
          let h4 := { h3 with max_value := h3.max_value + 1 }
          let h5 := { h4 with rows := (ser value, new_id) :: h4.rows }
          let h6 := { h5 with cache := h5.cache.insert value new_id }
          (new_id, { h6 with new_value_lock := h6.new_value_lock.lock_release value })
    else (idv, h1)

/-- Rust `SELECT name FROM sylphie_db_interner WHERE hive = ? AND int_id = ?`. -/
def find_row_by_id {B : Type} : List (B × Nat) → Nat → Option B
  | [], _ => none
  | (n, i) :: rest, idv => if i = idv then some n else find_row_by_id rest idv

/-- Rust `InternerHive::rev_intern` (interner.rs lines 116-126): `cached_async`
over the reverse row query; a missing ID is the internal error
"Invalid interned value."; the `intern` string-dedup closure is
semantically the identity and elided. -/
def rev_intern {T B : Type} [DecidableEq T] [DecidableEq B]
    (deser : B → Except String T) (h : HiveState T B) (idv : Nat) :
    Except String T × HiveState T B :=
  match h.rev_cache.cached_async idv
      (match find_row_by_id h.rows idv with
       | some name => deser name
       | none => Except.error "Invalid interned value.") with
  | (r, c') => (r, { h with rev_cache := c' })

/-! ### Two concurrent `intern` calls

`InternerHive::intern` suspends at each `await`; the program of one task
is split at those points, with the database/cache/lock accesses of each
segment taken as one atomic step (coarser steps only restrict the set of
schedules, so every behaviour of this machine is a behaviour of the
source).  Task 0 and task 1 both intern the same value. -/
inductive InternPc where
  /-- about to run the initial `intern_query`. -/
  | atQuery
  /-- about to poll `new_value_lock.lock(value)` (`WaitForLockSetFut`). -/
  | atLock
  /-- holding the lock; about to re-run `intern_query`. -/
  | atRequery
  /-- still unseen: about to `fetch_add`, `INSERT` the row and refresh
  the cache. -/
  | atInsert
  /-- about to drop the lock guard and return `r`. -/
  | atRelease (r : Nat)
  /-- returned `r`. -/
  | done (r : Nat)
deriving DecidableEq

/-- One step of `InternerHive::intern` for the task with waker id `w`,
interning `v` (with `T = B = Nat` and the identity serializer). -/
def intern_step (v : Nat) (w : Nat) :
    InternPc → HiveState Nat Nat → InternPc × HiveState Nat Nat
  | InternPc.atQuery, h =>
    match intern_query (fun b => b) h v with
    | (idv, h1) => (if idv = 0 then InternPc.atLock else InternPc.done idv, h1)
  | InternPc.atLock, h =>
    match h.new_value_lock.lock_poll v w with
    | (acquired, l1) =>
      (if acquired then InternPc.atRequery else InternPc.atLock,
       { h with new_value_lock := l1 })
  | InternPc.atRequery, h =>
    match intern_query (fun b => b) h v with
    | (current_val, h1) =>
      (if current_val ≠ 0 then InternPc.atRelease current_val else InternPc.atInsert,
       h1)
  | InternPc.atInsert, h =>
    let new_id := h.max_value
    let h1 := { h with max_value := h.max_value + 1 }
    let h2 := { h1 with rows := (v, new_id) :: h1.rows }
    let h3 := { h2 with cache := h2.cache.insert v new_id }
    (InternPc.atRelease new_id, h3)
  | InternPc.atRelease r, h =>
    -- LockSetGuard::drop; `guard_drop = none` is the source's unwrap panic
    match h.new_value_lock.guard_drop v with
    | some (l1, _) => (InternPc.done r, { h with new_value_lock := l1 })
    | none => (InternPc.done r, h)
  | InternPc.done r, h => (InternPc.done r, h)

/-- Run two tasks both executing `intern(v)` under a schedule: `true`
steps task 0, `false` steps task 1. -/
def run_two (v : Nat) :
    List Bool → InternPc × InternPc × HiveState Nat Nat →
      InternPc × InternPc × HiveState Nat Nat
  | [], st => st
  | b :: rest, (pa, pb, h) =>
    if b then
      match intern_step v 0 pa h with
      | (pa', h') => run_two v rest (pa', pb, h')
    else
      match intern_step v 1 pb h with
      | (pb', h') => run_two v rest (pa, pb', h')

/-! ## Concrete instances used by the witnesses -/

/-- A trivial serializable instance on `Nat` (blob = value). -/
def natSerInst : DbSerializableInst Nat Nat :=
  { idStr := "u64"
    schemaVersion := 0
    serialize := fun v => v
    deserialize := fun b => Except.ok b
    can_migrate_from := fun _ _ => false
    do_migration := fun _ _ _ => Except.error "no migration"
    deserialize_serialize := fun _ => rfl }

/-- Store metadata with no interned reverse entries. -/
def info0 : BaseKvsStoreInfo := { value_id := 1, interner_rev := [] }

/-- An empty concrete store state. -/
def kvs0 : KvsState Nat Nat Nat Nat :=
  { db := [], cache := LruData.new 4 [], locks := [] }

/-- A store state holding one row for key 3, with its lock held. -/
def kvs1 : KvsState Nat Nat Nat Nat :=
  { db := [(3, { value := 5, valueSchemaId := 1, valueSchemaVer := 0 })]
    cache := LruData.new 4 []
    locks := [(3, [])] }

/-- Store metadata able to resolve the stale schema id 2 to a name. -/
def info7 : BaseKvsStoreInfo := { value_id := 1, interner_rev := [(2, "old")] }

/-- A store state holding a row for key 3 tagged with the stale schema
identity `(2, version 5)`. -/
def kvs7 : KvsState Nat Nat Nat Nat :=
  { db := [(3, { value := 9, valueSchemaId := 2, valueSchemaVer := 5 })]
    cache := LruData.new 4 []
    locks := [] }

/-- A migration whose second script fails (schema state is a counter of
applied steps). -/
def c2_m : MigrationData Nat :=
  { migration_id := "migA"
    migration_set_name := "set A"
    is_transient := false
    target_version := 2
    scripts :=
      [ { from_version := 0, to_version := 1, script_name := "s0to1"
          script_data := fun n => Except.ok (n + 1) },
        { from_version := 1, to_version := 2, script_name := "s1to2"
          script_data := fun _ => Except.error "script failed" } ] }

/-- A fresh database for the migration witnesses. -/
def c2_db : MigrationDb Nat :=
  { tracking := [], transient_tracking := [], schema := 0 }

/-- A fresh migration-manager state. -/
def c2_st : MigrationManagerState :=
  { tables_created := false, repeat_transaction_watch := [] }

/-- The schedule of the two-task `intern` interleaving: both tasks query
(seeing the 0 sentinel), both acquire the lock, both re-query 0, then
task 0 inserts and releases before task 1 inserts. -/
def c6_sched : List Bool :=
  [true, false, true, false, true, false, true, true, false]

/-- Both tasks start at `intern`'s entry on a freshly bootstrapped hive
(`HiveId::Other = 2`, empty table). -/
def c6_init : InternPc × InternPc × HiveState Nat Nat :=
  (InternPc.atQuery, InternPc.atQuery, from_db 2 [] [] [])

/-! ## Association-map and list-indexing lemmas -/

@[simp] theorem alookup_nil [DecidableEq K] (k : K) :
    alookup ([] : List (K × V)) k = none := rfl

@[simp] theorem alookup_cons [DecidableEq K] (k' k : K) (v : V) (rest : List (K × V)) :
    alookup ((k', v) :: rest) k = if k' = k then some v else alookup rest k := rfl

theorem alookup_aerase_self [DecidableEq K] (m : List (K × V)) (k : K) :
    alookup (aerase m k) k = none := by
  induction m with
  | nil => rfl
  | cons p rest ih =>
    obtain ⟨k', v⟩ := p
    by_cases h : k' = k <;> simp [aerase, h, ih]

theorem alookup_aerase_ne [DecidableEq K] (m : List (K × V)) (k k' : K) (h : k' ≠ k) :
    alookup (aerase m k) k' = alookup m k' := by
  induction m with
  | nil => rfl
  | cons p rest ih =>
    obtain ⟨k'', v⟩ := p
    by_cases h2 : k'' = k
    · rw [show aerase ((k'', v) :: rest) k = aerase rest k by simp [aerase, h2]]
      rw [ih, alookup_cons, if_neg (fun hh => h (by rw [← hh]; exact h2))]
    · rw [show aerase ((k'', v) :: rest) k = (k'', v) :: aerase rest k by
        simp [aerase, h2]]
      by_cases h3 : k'' = k'
      · rw [alookup_cons, if_pos h3, alookup_cons, if_pos h3]
      · rw [alookup_cons, if_neg h3, alookup_cons, if_neg h3, ih]

@[simp] theorem alookup_ainsert_self [DecidableEq K] (m : List (K × V)) (k : K) (v : V) :
    alookup (ainsert m k v) k = some v := by
  simp [ainsert]

theorem alookup_ainsert_ne [DecidableEq K] (m : List (K × V)) (k k' : K) (v : V)
    (h : k' ≠ k) : alookup (ainsert m k v) k' = alookup m k' := by
  unfold ainsert
  rw [alookup_cons, if_neg (fun hh => h hh.symm), alookup_aerase_ne m k k' h]

theorem mem_aerase [DecidableEq K] {m : List (K × V)} {k : K} {p : K × V} :
    p ∈ aerase m k ↔ p ∈ m ∧ p.1 ≠ k := by
  induction m with
  | nil => simp [aerase]
  | cons q rest ih =>
    obtain ⟨k', v⟩ := q
    by_cases h : k' = k
    · rw [show aerase ((k', v) :: rest) k = aerase rest k by simp [aerase, h], ih]
      constructor
      · rintro ⟨hm, hne⟩
        exact ⟨List.mem_cons_of_mem _ hm, hne⟩
      · rintro ⟨hm, hne⟩
        rcases List.mem_cons.mp hm with hp | hm2
        · exact absurd (by rw [hp]; exact h) hne
        · exact ⟨hm2, hne⟩
    · rw [show aerase ((k', v) :: rest) k = (k', v) :: aerase rest k by
        simp [aerase, h]]
      constructor
      · intro hmem
        rcases List.mem_cons.mp hmem with hp | hm2
        · exact ⟨List.mem_cons.mpr (Or.inl hp), by rw [hp]; exact h⟩
        · obtain ⟨hm3, hne⟩ := ih.mp hm2
          exact ⟨List.mem_cons_of_mem _ hm3, hne⟩
      · rintro ⟨hm, hne⟩
        rcases List.mem_cons.mp hm with hp | hm2
        · exact List.mem_cons.mpr (Or.inl hp)
        · exact List.mem_cons_of_mem _ (ih.mpr ⟨hm2, hne⟩)

theorem mem_ainsert [DecidableEq K] {m : List (K × V)} {k : K} {v : V} {p : K × V} :
    p ∈ ainsert m k v ↔ p = (k, v) ∨ (p ∈ m ∧ p.1 ≠ k) := by
  simp [ainsert, mem_aerase]

theorem keysNodup_aerase [DecidableEq K] {m : List (K × V)} (k : K)
    (h : KeysNodup m) : KeysNodup (aerase m k) := by
  induction m with
  | nil => simpa [aerase] using h
  | cons p rest ih =>
    obtain ⟨k', v⟩ := p
    simp only [KeysNodup, List.map_cons, List.nodup_cons] at h
    by_cases h2 : k' = k
    · rw [show aerase ((k', v) :: rest) k = aerase rest k by simp [aerase, h2]]
      exact ih h.2
    · rw [show aerase ((k', v) :: rest) k = (k', v) :: aerase rest k by
        simp [aerase, h2]]
      simp only [KeysNodup, List.map_cons, List.nodup_cons]
      refine ⟨fun hmem => ?_, ih h.2⟩
      obtain ⟨q, hq, hq1⟩ := List.mem_map.mp hmem
      exact h.1 (List.mem_map.mpr ⟨q, (mem_aerase.mp hq).1, hq1⟩)

theorem keysNodup_ainsert [DecidableEq K] {m : List (K × V)} (k : K) (v : V)
    (h : KeysNodup m) : KeysNodup (ainsert m k v) := by
  simp only [KeysNodup, ainsert, List.map_cons, List.nodup_cons]
  refine ⟨fun hmem => ?_, keysNodup_aerase k h⟩
  obtain ⟨q, hq, hq1⟩ := List.mem_map.mp hmem
  exact (mem_aerase.mp hq).2 hq1

theorem mem_of_alookup_eq_some [DecidableEq K] {m : List (K × V)} {k : K} {v : V}
    (h : alookup m k = some v) : (k, v) ∈ m := by
  induction m with
  | nil => simp [alookup] at h
  | cons p rest ih =>
    obtain ⟨k', v'⟩ := p
    rw [alookup_cons] at h
    by_cases h2 : k' = k
    · rw [if_pos h2] at h
      obtain rfl : v' = v := Option.some.inj h
      subst h2
      exact List.mem_cons_self _ _
    · rw [if_neg h2] at h
      exact List.mem_cons_of_mem _ (ih h)

/-! ## Auxiliary list-indexing lemmas (for the fixed slot vector) -/

theorem getD_eq_dflt_of_le {l : List A} {i : Nat} (d : A) (h : l.length ≤ i) :
    l.getD i d = d := by
  induction l generalizing i with
  | nil => simp [List.getD]
  | cons a rest ih =>
    cases i with
    | zero => simp at h
    | succ j => simpa [List.getD] using ih (Nat.le_of_succ_le_succ h)

theorem lt_length_of_getD_ne_dflt {l : List (Option A)} {i : Nat}
    (h : l.getD i none ≠ none) : i < l.length := by
  by_contra hlt
  exact h (getD_eq_dflt_of_le none (Nat.le_of_not_lt hlt))

theorem getD_set_self {l : List A} (a d : A) : ∀ (i : Nat), i < l.length →
    (l.set i a).getD i d = a := by
  induction l with
  | nil => intro i h; simp at h
  | cons b rest ih =>
    intro i h
    cases i with
    | zero => simp [List.getD]
    | succ j => simpa [List.getD] using ih j (Nat.lt_of_succ_lt_succ h)

theorem getD_set_ne {l : List A} (a d : A) : ∀ (i j : Nat), j ≠ i →
    (l.set i a).getD j d = l.getD j d := by
  induction l with
  | nil => intro i j _; simp
  | cons b rest ih =>
    intro i j h
    cases i with
    | zero =>
      cases j with
      | zero => exact absurd rfl h
      | succ j2 => simp [List.getD]
    | succ i2 =>
      cases j with
      | zero => simp [List.getD]
      | succ j2 => simpa [List.getD] using ih i2 j2 (fun hh => h (by rw [hh]))

theorem getD_replicate_of_lt {n i : Nat} (x d : A) (h : i < n) :
    (List.replicate n x).getD i d = x := by
  induction n generalizing i with
  | zero => simp at h
  | succ m ih =>
    cases i with
    | zero => simp [List.getD, List.replicate]
    | succ j => simpa [List.getD, List.replicate] using ih (Nat.lt_of_succ_lt_succ h)


theorem lineOk_iff {K V : Type} {cd : List (Option (LruEntry K V))} {p : K × Nat} :
    lineOk cd p ↔ ∃ l, cd.getD p.2 none = some l ∧ l.key = p.1 ∧ l.isBusy = false := by
  unfold lineOk
  rcases h : cd.getD p.2 none with _ | l <;> simp

theorem lineOk_congr {K V : Type} {cd cd' : List (Option (LruEntry K V))} {p : K × Nat}
    (h : cd.getD p.2 none = cd'.getD p.2 none) : lineOk cd p ↔ lineOk cd' p := by
  rw [lineOk_iff, lineOk_iff, h]


section CacheLemmas

variable {K V : Type}

@[simp] theorem LruData.lines_setLine (d : LruData K V) (i : Nat)
    (e : Option (LruEntry K V)) : (d.setLine i e).lines = d.lines := rfl

@[simp] theorem LruData.keyLookup_setLine (d : LruData K V) (i : Nat)
    (e : Option (LruEntry K V)) : (d.setLine i e).keyLookup = d.keyLookup := rfl

@[simp] theorem LruData.cacheData_setLine (d : LruData K V) (i : Nat)
    (e : Option (LruEntry K V)) : (d.setLine i e).cacheData = d.cacheData.set i e := rfl

theorem LruData.lines_markBusy (d : LruData K V) (i : Nat) :
    (d.markBusy i).lines = d.lines := by
  unfold LruData.markBusy
  rcases h : d.line i with _ | e <;> simp

theorem LruData.keyLookup_markBusy (d : LruData K V) (i : Nat) :
    (d.markBusy i).keyLookup = d.keyLookup := by
  unfold LruData.markBusy
  rcases h : d.line i with _ | e <;> simp

theorem LruData.length_markBusy (d : LruData K V) (i : Nat) :
    (d.markBusy i).cacheData.length = d.cacheData.length := by
  unfold LruData.markBusy
  rcases h : d.line i with _ | e <;> simp

theorem LruData.getD_markBusy_ne (d : LruData K V) {i j : Nat} (h : j ≠ i) :
    (d.markBusy i).cacheData.getD j none = d.cacheData.getD j none := by
  unfold LruData.markBusy
  rcases h2 : d.line i with _ | e
  · rfl
  · simpa using getD_set_ne (some { e with isBusy := true }) none i j h

@[simp] theorem LruData.lines_replace (d : LruData K V) :
    (d.replace).2.lines = d.lines := by
  unfold LruData.replace
  rcases d.victims with _ | ⟨v, rest⟩ <;> simp

@[simp] theorem LruData.keyLookup_replace (d : LruData K V) :
    (d.replace).2.keyLookup = d.keyLookup := by
  unfold LruData.replace
  rcases d.victims with _ | ⟨v, rest⟩ <;> simp

@[simp] theorem LruData.cacheData_replace (d : LruData K V) :
    (d.replace).2.cacheData = d.cacheData := by
  unfold LruData.replace
  rcases d.victims with _ | ⟨v, rest⟩ <;> simp

theorem LruData.replace_fst_lt (d : LruData K V) (h : 0 < d.lines) :
    (d.replace).1 < d.lines := by
  unfold LruData.replace
  rcases d.victims with _ | ⟨v, rest⟩
  · simpa using Nat.mod_lt 0 h
  · simpa using Nat.mod_lt v h

theorem cacheInv_replace [DecidableEq K] {d : LruData K V} (h : CacheInv d) :
    CacheInv (d.replace).2 := by
  obtain ⟨h1, h2, h3, h4⟩ := h
  exact ⟨by simpa using h1, by simpa using h2, by simpa using h3, by
    simpa using h4⟩

/-- Installing a fresh entry `e` for `key` at an in-range line and
pointing a pruned index `m'` (whose surviving entries all avoid that
line) at it preserves the invariant. -/
theorem cacheInv_install [DecidableEq K] {n lineNo : Nat}
    {cd : List (Option (LruEntry K V))} {m' : List (K × Nat)}
    {key : K} {e : LruEntry K V} {vs : List Nat}
    (hpos : 0 < n) (hlen : cd.length = n)
    (hkey : e.key = key) (hbusy : e.isBusy = false) (hlt : lineNo < n)
    (hnodup : KeysNodup m')
    (hentries : ∀ p ∈ m', p.2 < n ∧ p.2 ≠ lineNo ∧ lineOk cd p) :
    CacheInv { lines := n, cacheData := cd.set lineNo (some e),
               keyLookup := ainsert m' key lineNo, victims := vs } := by
  refine ⟨hpos, by simpa using hlen, keysNodup_ainsert _ _ hnodup, ?_⟩
  intro p hp
  rcases mem_ainsert.mp hp with rfl | ⟨hpm, _⟩
  · refine ⟨hlt, ?_⟩
    rw [lineOk_iff]
    exact ⟨e, getD_set_self _ _ lineNo (hlen ▸ hlt), hkey, hbusy⟩
  · obtain ⟨hlt2, hne2, hok⟩ := hentries p hpm
    exact ⟨hlt2, (lineOk_congr (getD_set_ne (some e) none lineNo p.2 hne2)).mpr hok⟩

/-- The in-place-line facts an index hit yields under the invariant. -/
theorem cacheInv_lookup_line [DecidableEq K] {d : LruData K V} {key : K} {lineNo : Nat}
    (hinv : CacheInv d) (hl : alookup d.keyLookup key = some lineNo) :
    lineNo < d.lines ∧ ∃ l, d.line lineNo = some l ∧ l.key = key ∧ l.isBusy = false := by
  obtain ⟨_, _, _, hmem⟩ := hinv
  have h := hmem (key, lineNo) (mem_of_alookup_eq_some hl)
  obtain ⟨l, hline, hlkey, hlbusy⟩ := lineOk_iff.mp h.2
  exact ⟨h.1, l, hline, hlkey, hlbusy⟩

theorem LruData.markBusy_eq_of_line {d : LruData K V} {i : Nat} {l : LruEntry K V}
    (h : d.line i = some l) :
    d.markBusy i
      = { d with cacheData := d.cacheData.set i (some { l with isBusy := true }) } := by
  unfold LruData.markBusy
  rw [h]

theorem install_existing_eq {d : LruData K V} {lineNo : Nat} {l e : LruEntry K V}
    (hline : d.line lineNo = some l) (hbusy : e.isBusy = false) :
    LruData.install_existing d lineNo (some e)
      = { d with cacheData := d.cacheData.set lineNo (some e) } := by
  have hee : ({ e with isBusy := false } : LruEntry K V) = e := by
    cases e; subst hbusy; rfl
  unfold LruData.install_existing
  rw [LruData.markBusy_eq_of_line hline]
  simp [LruData.setLine, hee, List.set_set]

theorem install_victim_occupied_eq [DecidableEq K] {d : LruData K V} {key : K}
    {e l : LruEntry K V} {lineNo : Nat} (hline : d.line lineNo = some l) :
    LruData.install_victim_occupied d key (some e) lineNo l.key
      = { lines := d.lines, cacheData := d.cacheData.set lineNo (some e),
          keyLookup := ainsert (aerase d.keyLookup l.key) key lineNo,
          victims := d.victims } := by
  unfold LruData.install_victim_occupied
  rw [LruData.markBusy_eq_of_line hline]
  simp [LruData.setLine, List.set_set]

theorem install_victim_empty_eq [DecidableEq K] {d : LruData K V} {key : K}
    {e : LruEntry K V} {lineNo : Nat} :
    LruData.install_victim_empty d key (some e) lineNo
      = { lines := d.lines, cacheData := d.cacheData.set lineNo (some e),
          keyLookup := ainsert d.keyLookup key lineNo, victims := d.victims } := rfl

theorem try_insert_fixed_of_lookup_none [DecidableEq K] {d : LruData K V} {key : K}
    (doReplace : Bool) (h : alookup d.keyLookup key = none) :
    LruData.try_insert_fixed d key doReplace = some none := by
  unfold LruData.try_insert_fixed
  rw [h]

theorem try_insert_fixed_eq_some_some [DecidableEq K] {d : LruData K V} {key : K}
    {doReplace : Bool} {lineNo : Nat}
    (h : LruData.try_insert_fixed d key doReplace = some (some lineNo)) :
    alookup d.keyLookup key = some lineNo := by
  unfold LruData.try_insert_fixed at h
  rcases hl : alookup d.keyLookup key with _ | ln
  · rw [hl] at h; simp at h
  · simp only [hl] at h
    rcases hline : d.line ln with _ | l
    · simp only [hline] at h; simp at h
    · simp only [hline] at h
      by_cases hk : l.key = key
      · rw [if_pos hk] at h
        cases doReplace
        · simp at h
        · by_cases hb : l.isBusy
          · simp [hb] at h
          · simp only [Bool.not_eq_true] at hb
            simp [hb] at h
            rw [h]
      · rw [if_neg hk] at h
        simp at h

theorem try_insert_fixed_hit [DecidableEq K] {d : LruData K V} {key : K} {lineNo : Nat}
    (hinv : CacheInv d) (hl : alookup d.keyLookup key = some lineNo) :
    LruData.try_insert_fixed d key true = some (some lineNo) := by
  obtain ⟨_, l, hline, hlkey, hlbusy⟩ := cacheInv_lookup_line hinv hl
  unfold LruData.try_insert_fixed
  simp only [hl, hline]
  rw [if_pos hlkey, hlbusy]
  rfl

theorem cacheInv_install_existing [DecidableEq K] {d : LruData K V} {key : K}
    {lineNo : Nat} {e : LruEntry K V}
    (hinv : CacheInv d) (hl : alookup d.keyLookup key = some lineNo)
    (hkey : e.key = key) (hbusy : e.isBusy = false) :
    CacheInv (LruData.install_existing d lineNo (some e)) := by
  obtain ⟨hlt, l, hline, hlkey, hlbusy⟩ := cacheInv_lookup_line hinv hl
  obtain ⟨hpos, hlen, hnodup, hmem⟩ := hinv
  rw [install_existing_eq hline hbusy]
  refine ⟨hpos, by simpa using hlen, hnodup, ?_⟩
  intro p hp
  obtain ⟨hplt, hpok⟩ := hmem p hp
  by_cases hpe : p.2 = lineNo
  · refine ⟨hplt, ?_⟩
    rw [lineOk_iff]
    refine ⟨e, by rw [hpe]; exact getD_set_self _ _ _ (hlen ▸ hlt), ?_, hbusy⟩
    obtain ⟨l', hl', hlk', _⟩ := lineOk_iff.mp hpok
    rw [hpe] at hl'
    have hgd : d.cacheData.getD lineNo none = some l := hline
    rw [hgd] at hl'
    obtain rfl : l = l' := Option.some.inj hl'
    rw [hkey, ← hlk', hlkey]
  · exact ⟨hplt, (lineOk_congr (getD_set_ne _ _ _ _ hpe)).mpr hpok⟩

theorem cacheInv_install_victim_occupied [DecidableEq K] {d : LruData K V} {key : K}
    {e l : LruEntry K V} {lineNo : Nat}
    (hinv : CacheInv d) (hline : d.line lineNo = some l)
    (hkey : e.key = key) (hbusy : e.isBusy = false) :
    CacheInv (LruData.install_victim_occupied d key (some e) lineNo l.key) := by
  obtain ⟨hpos, hlen, hnodup, hmem⟩ := hinv
  have hgd : d.cacheData.getD lineNo none = some l := hline
  have hlt : lineNo < d.lines := by
    rw [← hlen]
    exact lt_length_of_getD_ne_dflt (by rw [hgd]; simp)
  rw [install_victim_occupied_eq hline]
  apply cacheInv_install hpos hlen hkey hbusy hlt (keysNodup_aerase _ hnodup)
  intro p hp
  obtain ⟨hpm, hpne⟩ := mem_aerase.mp hp
  obtain ⟨hplt, hpok⟩ := hmem p hpm
  refine ⟨hplt, ?_, hpok⟩
  intro heq
  obtain ⟨l'', hgd2, hk2, _⟩ := lineOk_iff.mp hpok
  rw [heq, hgd] at hgd2
  obtain rfl : l = l'' := Option.some.inj hgd2
  exact hpne (hk2 ▸ rfl)

theorem cacheInv_install_victim_empty [DecidableEq K] {d : LruData K V} {key : K}
    {e : LruEntry K V} {lineNo : Nat}
    (hinv : CacheInv d) (hline : d.line lineNo = none) (hlt : lineNo < d.lines)
    (hkey : e.key = key) (hbusy : e.isBusy = false) :
    CacheInv (LruData.install_victim_empty d key (some e) lineNo) := by
  obtain ⟨hpos, hlen, hnodup, hmem⟩ := hinv
  have hgd : d.cacheData.getD lineNo none = none := hline
  rw [install_victim_empty_eq]
  apply cacheInv_install hpos hlen hkey hbusy hlt hnodup
  intro p hp
  obtain ⟨hplt, hpok⟩ := hmem p hp
  refine ⟨hplt, ?_, hpok⟩
  intro heq
  obtain ⟨l'', hgd2, _, _⟩ := lineOk_iff.mp hpok
  rw [heq, hgd] at hgd2
  exact Option.noConfusion hgd2

theorem cacheInv_try_insert_loop [DecidableEq K] {key : K} {e : LruEntry K V}
    (hkey : e.key = key) (hbusy : e.isBusy = false) :
    ∀ (fuel : Nat) (doReplace : Bool) (d : LruData K V), CacheInv d →
      CacheInv (LruData.try_insert_loop fuel key (some e) doReplace d) := by
  intro fuel
  induction fuel with
  | zero =>
    intro doReplace d h
    exact h
  | succ n ih =>
    intro doReplace d hinv
    rw [LruData.try_insert_loop]
    rcases hf : LruData.try_insert_fixed d key doReplace with _ | _ | lineNo
    · simp only [hf]
      exact hinv
    · simp only [hf]
      have hinv1 : CacheInv (d.replace).2 := cacheInv_replace hinv
      rcases hline : (d.replace).2.line (d.replace).1 with _ | l
      · simp only [hline]
        exact cacheInv_install_victim_empty hinv1 hline
          (by simpa using LruData.replace_fst_lt d hinv.1) hkey hbusy
      · simp only [hline]
        rcases hb : l.isBusy with _ | _
        · rw [if_neg (by simp)]
          exact cacheInv_install_victim_occupied hinv1 hline hkey hbusy
        · rw [if_pos rfl]
          exact ih doReplace _ hinv1
    · simp only [hf]
      exact cacheInv_install_existing hinv (try_insert_fixed_eq_some_some hf) hkey hbusy

theorem cacheInv_insert_cache [DecidableEq K] {d : LruData K V} {key : K} {v : V}
    (doReplace : Bool) (hinv : CacheInv d) :
    CacheInv (LruData.insert_cache key v doReplace d) :=
  cacheInv_try_insert_loop (e := { key := key, value := v, isBusy := false })
    rfl rfl _ doReplace d hinv

theorem cacheInv_insert [DecidableEq K] {d : LruData K V} {key : K} {v : V}
    (hinv : CacheInv d) : CacheInv (d.insert key v) :=
  cacheInv_insert_cache true hinv

theorem cacheInv_cached [DecidableEq K] {d : LruData K V} {key : K}
    {makeNew : Except String V} (hinv : CacheInv d) :
    CacheInv (d.cached key makeNew).2 := by
  unfold LruData.cached
  rcases h : LruData.check_cached d key with _ | v
  · rcases makeNew with e | v2
    · exact hinv
    · exact cacheInv_insert_cache false hinv
  · exact hinv

theorem invalidate_eq_of_hit [DecidableEq K] {d : LruData K V} {key : K}
    {lineNo : Nat} {l : LruEntry K V}
    (hl : alookup d.keyLookup key = some lineNo) (hline : d.line lineNo = some l)
    (hnb : l.isBusy = false) :
    d.invalidate key
      = { lines := d.lines,
          cacheData := d.cacheData.set lineNo (some { l with isBusy := true }),
          keyLookup := aerase d.keyLookup l.key, victims := d.victims } := by
  unfold LruData.invalidate LruData.invalidate_cache
  simp only [hl, hline, hnb]
  rw [LruData.markBusy_eq_of_line hline]
  rfl

theorem cacheInv_invalidate [DecidableEq K] {d : LruData K V} {key : K}
    (hinv : CacheInv d) : CacheInv (d.invalidate key) := by
  rcases hl : alookup d.keyLookup key with _ | lineNo
  · have : d.invalidate key = d := by
      unfold LruData.invalidate LruData.invalidate_cache
      rw [hl]
    rw [this]; exact hinv
  · obtain ⟨hlt, l, hline, hlkey, hlbusy⟩ := cacheInv_lookup_line hinv hl
    obtain ⟨hpos, hlen, hnodup, hmem⟩ := hinv
    rw [invalidate_eq_of_hit hl hline hlbusy]
    refine ⟨hpos, by simpa using hlen, keysNodup_aerase _ hnodup, ?_⟩
    intro p hp
    obtain ⟨hpm, hpne⟩ := mem_aerase.mp hp
    obtain ⟨hplt, hpok⟩ := hmem p hpm
    have hgd : d.cacheData.getD lineNo none = some l := hline
    have hne : p.2 ≠ lineNo := by
      intro heq
      obtain ⟨l'', hgd2, hk2, _⟩ := lineOk_iff.mp hpok
      rw [heq, hgd] at hgd2
      obtain rfl : l = l'' := Option.some.inj hgd2
      exact hpne (hk2 ▸ rfl)
    exact ⟨hplt, (lineOk_congr (getD_set_ne _ _ _ _ hne)).mpr hpok⟩

theorem cacheInv_applyOp [DecidableEq K] {d : LruData K V} (op : CacheOp K V)
    (hinv : CacheInv d) : CacheInv (applyOp d op) := by
  cases op with
  | insertOp k v => exact cacheInv_insert hinv
  | cachedOp k r => exact cacheInv_cached hinv
  | cachedAsyncOp k r => exact cacheInv_cached hinv
  | invalidateOp k => exact cacheInv_invalidate hinv

theorem cacheInv_runOps [DecidableEq K] :
    ∀ (ops : List (CacheOp K V)) (d : LruData K V), CacheInv d →
      CacheInv (runOps d ops) := by
  intro ops
  induction ops with
  | nil => intro d h; exact h
  | cons op rest ih =>
    intro d h
    exact ih (applyOp d op) (cacheInv_applyOp op h)

theorem cacheInv_new [DecidableEq K] {n : Nat} (h : 0 < n) (vs : List Nat) :
    CacheInv (LruData.new n vs : LruData K V) := by
  refine ⟨h, by simp [LruData.new], by simp [LruData.new, KeysNodup], ?_⟩
  intro p hp
  simp [LruData.new] at hp

theorem check_cached_of_lookup_none [DecidableEq K] {d : LruData K V} {key : K}
    (h : alookup d.keyLookup key = none) : LruData.check_cached d key = none := by
  unfold LruData.check_cached
  rw [h]

theorem check_cached_insert_hit [DecidableEq K] {d : LruData K V} {key : K} {v : V}
    {lineNo : Nat} (hinv : CacheInv d) (hl : alookup d.keyLookup key = some lineNo) :
    LruData.check_cached (d.insert key v) key = some v := by
  obtain ⟨hlt, l, hline, hlkey, hlbusy⟩ := cacheInv_lookup_line hinv hl
  have hfx := try_insert_fixed_hit hinv hl
  have hres : d.insert key v
      = LruData.install_existing d lineNo
          (some { key := key, value := v, isBusy := false }) := by
    unfold LruData.insert LruData.insert_cache
    rw [LruData.try_insert_loop]
    simp only [hfx]
  rw [hres, install_existing_eq hline rfl]
  unfold LruData.check_cached
  simp only [hl, LruData.line]
  rw [getD_set_self _ _ _ (by rw [hinv.2.1]; exact hlt)]
  simp

theorem insert_lands_or_misses [DecidableEq K] {key : K} {e : LruEntry K V}
    (hkey : e.key = key) (hbusy : e.isBusy = false) :
    ∀ (fuel : Nat) (d : LruData K V), CacheInv d → alookup d.keyLookup key = none →
      LruData.check_cached (LruData.try_insert_loop fuel key (some e) true d) key
          = some e.value
      ∨ alookup (LruData.try_insert_loop fuel key (some e) true d).keyLookup key
          = none := by
  intro fuel
  induction fuel with
  | zero => intro d _ h; exact Or.inr h
  | succ n ih =>
    intro d hinv hmiss
    rw [LruData.try_insert_loop]
    simp only [try_insert_fixed_of_lookup_none true hmiss]
    have hinv1 : CacheInv (d.replace).2 := cacheInv_replace hinv
    have hmiss1 : alookup (d.replace).2.keyLookup key = none := by simpa using hmiss
    have hlen1 : (d.replace).2.cacheData.length = d.lines := by
      simpa using hinv.2.1
    rcases hline : (d.replace).2.line (d.replace).1 with _ | l
    · simp only [hline]
      rw [install_victim_empty_eq]
      left
      unfold LruData.check_cached
      simp only [alookup_ainsert_self, LruData.line]
      rw [getD_set_self _ _ _
        (by rw [hlen1]; exact LruData.replace_fst_lt d hinv.1)]
      simp [hkey]
    · simp only [hline]
      rcases hb : l.isBusy with _ | _
      · rw [if_neg (by simp)]
        rw [install_victim_occupied_eq hline]
        left
        unfold LruData.check_cached
        simp only [alookup_ainsert_self, LruData.line]
        have hgd : (d.replace).2.cacheData.getD (d.replace).1 none = some l := hline
        rw [getD_set_self _ _ _ (lt_length_of_getD_ne_dflt (by rw [hgd]; simp))]
        simp [hkey]
      · rw [if_pos rfl]
        exact ih _ hinv1 hmiss1

theorem check_cached_after_insert [DecidableEq K] {d : LruData K V} {key : K} {v : V}
    (hinv : CacheInv d) :
    LruData.check_cached (d.insert key v) key = some v
    ∨ alookup (d.insert key v).keyLookup key = none := by
  rcases hl : alookup d.keyLookup key with _ | lineNo
  · exact insert_lands_or_misses
      (e := { key := key, value := v, isBusy := false }) rfl rfl
      (d.lines + 1) d hinv hl
  · exact Or.inl (check_cached_insert_hit hinv hl)

theorem keyLookup_invalidate_self [DecidableEq K] {d : LruData K V} {key : K}
    (hinv : CacheInv d) : alookup (d.invalidate key).keyLookup key = none := by
  rcases hl : alookup d.keyLookup key with _ | lineNo
  · have hid : d.invalidate key = d := by
      unfold LruData.invalidate LruData.invalidate_cache
      rw [hl]
    rw [hid, hl]
  · obtain ⟨hlt, l, hline, hlkey, hlbusy⟩ := cacheInv_lookup_line hinv hl
    rw [invalidate_eq_of_hit hl hline hlbusy]
    show alookup (aerase d.keyLookup l.key) key = none
    rw [hlkey]
    exact alookup_aerase_self _ _

theorem keyLookup_length_le_of_cacheInv [DecidableEq K] {d : LruData K V}
    (hinv : CacheInv d) : d.keyLookup.length ≤ d.lines := by
  obtain ⟨hpos, hlen, hnodup, hmem⟩ := hinv
  have hnd : d.keyLookup.Nodup := List.Nodup.of_map Prod.fst hnodup
  have hinj : ∀ p ∈ d.keyLookup, ∀ q ∈ d.keyLookup, p.2 = q.2 → p = q := by
    intro p hp q hq heq
    obtain ⟨lp, hlp, hkp, _⟩ := lineOk_iff.mp (hmem p hp).2
    obtain ⟨lq, hlq, hkq, _⟩ := lineOk_iff.mp (hmem q hq).2
    rw [← heq] at hlq
    rw [hlp] at hlq
    obtain rfl : lp = lq := Option.some.inj hlq
    have hk : p.1 = q.1 := by rw [← hkp, ← hkq]
    exact List.inj_on_of_nodup_map hnodup hp hq hk
  have hsnd : (d.keyLookup.map Prod.snd).Nodup := List.Nodup.map_on hinj hnd
  have hsub : (d.keyLookup.map Prod.snd).toFinset ⊆ Finset.range d.lines := by
    intro x hx
    rw [List.mem_toFinset] at hx
    obtain ⟨p, hp, rfl⟩ := List.mem_map.mp hx
    exact Finset.mem_range.mpr (hmem p hp).1
  have hcard := Finset.card_le_card hsub
  rw [List.toFinset_card_of_nodup hsnd, Finset.card_range, List.length_map] at hcard
  exact hcard

end CacheLemmas

/-! ## Line-count preservation (the slot vector never grows) -/

section LinesLemmas

variable {K V : Type}

theorem lines_try_insert_loop [DecidableEq K] :
    ∀ (fuel : Nat) (key : K) (entry : Option (LruEntry K V)) (dr : Bool)
      (d : LruData K V),
      (LruData.try_insert_loop fuel key entry dr d).lines = d.lines := by
  intro fuel
  induction fuel with
  | zero => intro key entry dr d; rfl
  | succ n ih =>
    intro key entry dr d
    rw [LruData.try_insert_loop]
    rcases hf : LruData.try_insert_fixed d key dr with _ | _ | lineNo
    · simp only [hf]
    · simp only [hf]
      rcases hline : (d.replace).2.line (d.replace).1 with _ | l
      · simp only [hline]
        simp [LruData.install_victim_empty, LruData.setLine]
      · simp only [hline]
        rcases hb : l.isBusy with _ | _
        · rw [if_neg (by simp)]
          simp [LruData.install_victim_occupied, LruData.setLine,
            LruData.lines_markBusy]
        · rw [if_pos rfl]
          rw [ih]
          simp
    · simp only [hf]
      simp [LruData.install_existing, LruData.setLine, LruData.lines_markBusy]

theorem lines_insert [DecidableEq K] (d : LruData K V) (key : K) (v : V) :
    (d.insert key v).lines = d.lines :=
  lines_try_insert_loop _ _ _ _ _

theorem lines_cached [DecidableEq K] (d : LruData K V) (key : K)
    (makeNew : Except String V) : (d.cached key makeNew).2.lines = d.lines := by
  unfold LruData.cached
  rcases h : LruData.check_cached d key with _ | v
  · rcases makeNew with e | v2
    · rfl
    · exact lines_try_insert_loop _ _ _ _ _
  · rfl

theorem lines_invalidate [DecidableEq K] (d : LruData K V) (key : K) :
    (d.invalidate key).lines = d.lines := by
  unfold LruData.invalidate LruData.invalidate_cache
  rcases hl : alookup d.keyLookup key with _ | lineNo
  · simp only [hl]
  · simp only [hl]
    rcases hline : d.line lineNo with _ | l
    · simp only [hline]
    · simp only [hline]
      rcases hb : l.isBusy with _ | _
      · rw [if_neg (by simp)]
        simp [LruData.lines_markBusy]
      · rw [if_pos rfl]

theorem lines_applyOp [DecidableEq K] (d : LruData K V) (op : CacheOp K V) :
    (applyOp d op).lines = d.lines := by
  cases op with
  | insertOp k v => exact lines_insert d k v
  | cachedOp k r => exact lines_cached d k r
  | cachedAsyncOp k r => exact lines_cached d k r
  | invalidateOp k => exact lines_invalidate d k

theorem lines_runOps [DecidableEq K] :
    ∀ (ops : List (CacheOp K V)) (d : LruData K V),
      (runOps d ops).lines = d.lines := by
  intro ops
  induction ops with
  | nil => intro d; rfl
  | cons op rest ih =>
    intro d
    show (runOps (applyOp d op) rest).lines = d.lines
    rw [ih, lines_applyOp]

end LinesLemmas

/-! ## KVS behaviour lemmas -/

section KvsLemmas

variable {K V BK BV : Type}

theorem cached_fst_of_check_some [DecidableEq K] {d : LruData K V} {key : K}
    {mk : Except String V} {v : V} (h : LruData.check_cached d key = some v) :
    (d.cached key mk).1 = Except.ok v := by
  unfold LruData.cached
  rw [h]

theorem cached_fst_of_check_none [DecidableEq K] {d : LruData K V} {key : K}
    {mk : Except String V} (h : LruData.check_cached d key = none) :
    (d.cached key mk).1 = mk.map id := by
  unfold LruData.cached
  rw [h]
  rcases mk with e | v <;> rfl

theorem cached_async_fst_of_check_some [DecidableEq K] {d : LruData K V} {key : K}
    {mk : Except String V} {v : V} (h : LruData.check_cached d key = some v) :
    (d.cached_async key mk).1 = Except.ok v :=
  cached_fst_of_check_some h

theorem cached_async_fst_of_check_none [DecidableEq K] {d : LruData K V} {key : K}
    {mk : Except String V} (h : LruData.check_cached d key = none) :
    (d.cached_async key mk).1 = mk.map id :=
  cached_fst_of_check_none h

theorem load_value_store_self [DecidableEq BK] (instK : DbSerializableInst K BK)
    (instV : DbSerializableInst V BV) (db : List (BK × KvsRow BV)) (k : K) (v : V)
    (info : BaseKvsStoreInfo) (vid : Nat) (mand : Bool) :
    load_value instK instV (store_value instK instV db k v vid) k info vid mand
      = Except.ok (some v) := by
  unfold load_value store_value
  simp [instV.deserialize_serialize, Except.map]

theorem load_value_delete_self [DecidableEq BK] (instK : DbSerializableInst K BK)
    (instV : DbSerializableInst V BV) (db : List (BK × KvsRow BV)) (k : K)
    (info : BaseKvsStoreInfo) (vid : Nat) (mand : Bool) :
    load_value instK instV (delete_value instK db k) k info vid mand
      = Except.ok none := by
  unfold load_value delete_value
  rw [alookup_aerase_self]

theorem get_0_after_set_0 [DecidableEq K] [DecidableEq BK]
    (instK : DbSerializableInst K BK) (instV : DbSerializableInst V BV)
    (info : BaseKvsStoreInfo) (tr : Bool) (s : KvsState K V BK BV)
    (k : K) (v : V) (hinv : CacheInv s.cache) :
    (get_0 instK instV info tr (set_0 instK instV info s k v) k).1
      = Except.ok (some v) := by
  have hdb : get_db instK instV info tr (set_0 instK instV info s k v) k
      = Except.ok (some v) := by
    show load_value instK instV (store_value instK instV s.db k v info.value_id) k
        info info.value_id (!tr) = Except.ok (some v)
    exact load_value_store_self instK instV s.db k v info info.value_id (!tr)
  show ((s.cache.insert k (some v)).cached_async k
      (get_db instK instV info tr (set_0 instK instV info s k v) k)).1
    = Except.ok (some v)
  rw [hdb]
  rcases @check_cached_after_insert _ _ _ s.cache k (some v) hinv
    with hc | hm
  · exact cached_async_fst_of_check_some hc
  · rw [cached_async_fst_of_check_none (check_cached_of_lookup_none hm)]
    rfl

theorem get_0_after_remove_0 [DecidableEq K] [DecidableEq BK]
    (instK : DbSerializableInst K BK) (instV : DbSerializableInst V BV)
    (info : BaseKvsStoreInfo) (tr : Bool) (s : KvsState K V BK BV)
    (k : K) (hinv : CacheInv s.cache) :
    (get_0 instK instV info tr (remove_0 instK s k) k).1 = Except.ok none := by
  have hdb : get_db instK instV info tr (remove_0 instK s k) k
      = Except.ok none := by
    show load_value instK instV (delete_value instK s.db k) k
        info info.value_id (!tr) = Except.ok none
    exact load_value_delete_self instK instV s.db k info info.value_id (!tr)
  show ((s.cache.insert k none).cached_async k
      (get_db instK instV info tr (remove_0 instK s k) k)).1 = Except.ok none
  rw [hdb]
  rcases @check_cached_after_insert _ _ _ s.cache k none hinv
    with hc | hm
  · exact cached_async_fst_of_check_some hc
  · rw [cached_async_fst_of_check_none (check_cached_of_lookup_none hm)]
    rfl

theorem get_0_after_remove_0_invalidate [DecidableEq K] [DecidableEq BK]
    (instK : DbSerializableInst K BK) (instV : DbSerializableInst V BV)
    (info : BaseKvsStoreInfo) (tr : Bool) (s : KvsState K V BK BV)
    (k : K) (hinv : CacheInv s.cache) :
    (get_0 instK instV info tr
        { remove_0 instK s k with
          cache := (remove_0 instK s k).cache.invalidate k } k).1
      = Except.ok none := by
  have hinv2 : CacheInv (s.cache.insert k none) := cacheInv_insert hinv
  have hm : alookup ((s.cache.insert k none).invalidate k).keyLookup k = none :=
    keyLookup_invalidate_self hinv2
  have hdb : get_db instK instV info tr
      { remove_0 instK s k with
        cache := (remove_0 instK s k).cache.invalidate k } k = Except.ok none := by
    show load_value instK instV (delete_value instK s.db k) k
        info info.value_id (!tr) = Except.ok none
    exact load_value_delete_self instK instV s.db k info info.value_id (!tr)
  show (((s.cache.insert k none).invalidate k).cached_async k
      (get_db instK instV info tr
        { remove_0 instK s k with
          cache := (remove_0 instK s k).cache.invalidate k } k)).1
    = Except.ok none
  rw [hdb]
  rw [cached_async_fst_of_check_none (check_cached_of_lookup_none hm)]
  rfl

end KvsLemmas

/-! ## Claim theorems -/

/-- C1: the claim says that while a `LockSetGuard` for key `k` returned
by `try_lock`/`lock` is alive, every further `try_lock(k)` returns
`None`.  The code refutes it: after a first successful `try_lock 0` on an
empty lock set (guard still alive, never dropped), a second `try_lock 0`
again returns a guard, because the held key's waker vector is empty and
`entry.is_empty()` cannot distinguish held from free. -/
theorem c1_try_lock_second_guard :
    (LockSetState.try_lock ([] : LockSetState Nat) 0).1 = true ∧
    (LockSetState.try_lock
        (LockSetState.try_lock ([] : LockSetState Nat) 0).2 0).1 = true := by
  exact ⟨rfl, rfl⟩

/-- C8: evaluation of `ConnectionManager::has_broken` at the failing
inputs.  The claim says `has_broken` is true exactly when `inner` is
`None`; the code computes `inner.is_some()`, so a healthy connection
(inner present) is reported broken and a poisoned one (inner taken) is
reported healthy and recycled — the exact inverse. -/
theorem c8_has_broken_inverted :
    has_broken ({ inner := some 0 } : BlockingWrapper Nat) = true ∧
    has_broken ({ inner := none } : BlockingWrapper Nat) = false ∧
    pool_recycles ({ inner := none } : BlockingWrapper Nat) = true := by
  exact ⟨rfl, rfl, rfl⟩

/-- C9: for every `LruCache` created with `n > 0` lines (any plru victim
oracle), after any sequence of `insert`, `cached`, `cached_async` and
`invalidate` operations, the number of resident keys (entries of the
key-to-line index) is at most `n`, and the slot vector itself stays at
fixed size `n`. -/
theorem c9_lru_resident_bound {K V : Type} [DecidableEq K] (n : Nat)
    (hn : 0 < n) (victims : List Nat) (ops : List (CacheOp K V)) :
    (runOps (LruData.new n victims) ops).keyLookup.length ≤ n ∧
    (runOps (LruData.new n victims) ops).cacheData.length = n := by
  have hinv := cacheInv_runOps ops _ (cacheInv_new hn victims)
  have hlines : (runOps (LruData.new n victims : LruData K V) ops).lines = n := by
    rw [lines_runOps]
    rfl
  constructor
  · have h1 := keyLookup_length_le_of_cacheInv hinv
    rwa [hlines] at h1
  · rw [hinv.2.1, hlines]

/-- Witness for C9 at `n = 2` with a short operation sequence. -/
theorem c9_lru_resident_bound_witness :
    (0 : Nat) < 2 ∧
    ((runOps (LruData.new 2 [] : LruData Nat Nat)
        [CacheOp.insertOp 5 7, CacheOp.insertOp 6 8,
         CacheOp.insertOp 9 1, CacheOp.invalidateOp 5]).keyLookup.length ≤ 2 ∧
     (runOps (LruData.new 2 [] : LruData Nat Nat)
        [CacheOp.insertOp 5 7, CacheOp.insertOp 6 8,
         CacheOp.insertOp 9 1, CacheOp.invalidateOp 5]).cacheData.length = 2) :=
  ⟨by decide,
   c9_lru_resident_bound 2 (by decide) []
     [CacheOp.insertOp 5 7, CacheOp.insertOp 6 8,
      CacheOp.insertOp 9 1, CacheOp.invalidateOp 5]⟩

/-- C3: for every key `k` and value `v` (and any store state whose cache
satisfies the structural invariant), `set(k, v)` followed by `get(k)`
returns `Some v`; `remove(k)` followed by `get(k)` returns `None`; and
the latter still holds after the cache entry for `k` has been evicted
(`invalidate`d), because `remove` deletes the row from the database
itself, not only the cache. -/
theorem c3_set_get_remove_roundtrip {K V BK BV : Type} [DecidableEq K]
    [DecidableEq BK] (instK : DbSerializableInst K BK)
    (instV : DbSerializableInst V BV) (info : BaseKvsStoreInfo)
    (isTransient : Bool) (s : KvsState K V BK BV) (k : K) (v : V)
    (hinv : CacheInv s.cache) :
    (get instK instV info isTransient (set instK instV info s k v) k).1
        = Except.ok (some v) ∧
    (get instK instV info isTransient (remove instK s k) k).1 = Except.ok none ∧
    (get instK instV info isTransient
        { remove instK s k with
          cache := (remove instK s k).cache.invalidate k } k).1
      = Except.ok none := by
  refine ⟨?_, ?_, ?_⟩
  · exact get_0_after_set_0 instK instV info isTransient
      { s with locks := s.locks.lock_acquire k } k v hinv
  · exact get_0_after_remove_0 instK instV info isTransient
      { s with locks := s.locks.lock_acquire k } k hinv
  · exact get_0_after_remove_0_invalidate instK instV info isTransient
      { s with locks := s.locks.lock_acquire k } k hinv

/-- Witness for C3: a concrete store over `Nat` keys and values. -/
theorem c3_set_get_remove_roundtrip_witness :
    CacheInv kvs0.cache ∧
    ((get natSerInst natSerInst info0 false
        (set natSerInst natSerInst info0 kvs0 3 7) 3).1 = Except.ok (some 7) ∧
     (get natSerInst natSerInst info0 false (remove natSerInst kvs0 3) 3).1
        = Except.ok none ∧
     (get natSerInst natSerInst info0 false
        { remove natSerInst kvs0 3 with
          cache := (remove natSerInst kvs0 3).cache.invalidate 3 } 3).1
        = Except.ok none) :=
  ⟨cacheInv_new (by decide) [],
   c3_set_get_remove_roundtrip natSerInst natSerInst info0 false kvs0 3 7
     (cacheInv_new (by decide) [])⟩

/-- C4: dropping a `KvsMutGuard` without `commit()` leaves both the
database and the cache unchanged (only the key's lock is released) — in
particular every subsequent `get` observes the same values — while
`commit()` persists exactly the value as mutated in memory through the
guard (`setValue v'` standing for arbitrary `DerefMut` mutation): the
key's row holds exactly the serialized mutated value under the current
schema identity, `get` returns it, and no other row changes. -/
theorem c4_mut_guard_drop_commit {K V BK BV : Type} [DecidableEq K]
    [DecidableEq BK] (instK : DbSerializableInst K BK)
    (instV : DbSerializableInst V BV) (info : BaseKvsStoreInfo)
    (isTransient : Bool) (s : KvsState K V BK BV)
    (g : KvsMutGuard K V) (v' : V) (hinv : CacheInv s.cache) :
    ((KvsMutGuard.dropGuard s g).db = s.db ∧
     (KvsMutGuard.dropGuard s g).cache = s.cache ∧
     (KvsMutGuard.dropGuard s g).locks = s.locks.lock_release g.ul_key) ∧
    (∀ k2, (get instK instV info isTransient (KvsMutGuard.dropGuard s g) k2).1
        = (get instK instV info isTransient s k2).1) ∧
    (alookup (KvsMutGuard.commit instK instV info s (g.setValue v')).db
        (instK.serialize g.ul_key)
      = some { value := instV.serialize v', valueSchemaId := info.value_id,
               valueSchemaVer := instV.schemaVersion } ∧
     (get instK instV info isTransient
         (KvsMutGuard.commit instK instV info s (g.setValue v')) g.ul_key).1
       = Except.ok (some v') ∧
     ∀ bk, bk ≠ instK.serialize g.ul_key →
       alookup (KvsMutGuard.commit instK instV info s (g.setValue v')).db bk
         = alookup s.db bk) := by
  refine ⟨⟨rfl, rfl, rfl⟩, fun k2 => rfl, ?_, ?_, ?_⟩
  · show alookup
      (ainsert s.db (instK.serialize g.ul_key)
        { value := instV.serialize v', valueSchemaId := info.value_id,
          valueSchemaVer := instV.schemaVersion })
      (instK.serialize g.ul_key) = _
    exact alookup_ainsert_self _ _ _
  · exact get_0_after_set_0 instK instV info isTransient s g.ul_key v' hinv
  · intro bk hbk
    show alookup
      (ainsert s.db (instK.serialize g.ul_key)
        { value := instV.serialize v', valueSchemaId := info.value_id,
          valueSchemaVer := instV.schemaVersion }) bk = alookup s.db bk
    exact alookup_ainsert_ne _ _ _ _ hbk

/-- Witness for C4: a concrete guard over `Nat` keys and values. -/
theorem c4_mut_guard_drop_commit_witness :
    CacheInv kvs1.cache ∧
    (((KvsMutGuard.dropGuard kvs1 { ul_key := 3, ul_value := 5 }).db = kvs1.db ∧
      (KvsMutGuard.dropGuard kvs1 { ul_key := 3, ul_value := 5 }).cache
        = kvs1.cache ∧
      (KvsMutGuard.dropGuard kvs1 { ul_key := 3, ul_value := 5 }).locks
        = kvs1.locks.lock_release 3) ∧
     (∀ k2, (get natSerInst natSerInst info0 false
          (KvsMutGuard.dropGuard kvs1 { ul_key := 3, ul_value := 5 }) k2).1
        = (get natSerInst natSerInst info0 false kvs1 k2).1) ∧
     (alookup (KvsMutGuard.commit natSerInst natSerInst info0 kvs1
          (KvsMutGuard.setValue { ul_key := 3, ul_value := 5 } 9)).db
          (natSerInst.serialize 3)
        = some { value := natSerInst.serialize 9, valueSchemaId := info0.value_id,
                 valueSchemaVer := natSerInst.schemaVersion } ∧
      (get natSerInst natSerInst info0 false
          (KvsMutGuard.commit natSerInst natSerInst info0 kvs1
            (KvsMutGuard.setValue { ul_key := 3, ul_value := 5 } 9)) 3).1
        = Except.ok (some 9) ∧
      ∀ bk, bk ≠ natSerInst.serialize 3 →
        alookup (KvsMutGuard.commit natSerInst natSerInst info0 kvs1
            (KvsMutGuard.setValue { ul_key := 3, ul_value := 5 } 9)).db bk
          = alookup kvs1.db bk)) :=
  ⟨cacheInv_new (by decide) [],
   c4_mut_guard_drop_commit natSerInst natSerInst info0 false kvs1
     { ul_key := 3, ul_value := 5 } 9 (cacheInv_new (by decide) [])⟩

/-- C7: when `get` misses the cache and finds a stored row whose
`(schema_id, schema_version)` tag differs from the expected value
identity, and the value type cannot migrate from that old identity, the
persistent store (`is_migration_mandatory = true`) returns an error
while the transient store returns `Ok(None)` without an error. -/
theorem c7_mandatory_migration_split {K V BK BV : Type} [DecidableEq K]
    [DecidableEq BK] (instK : DbSerializableInst K BK)
    (instV : DbSerializableInst V BV) (info : BaseKvsStoreInfo)
    (s : KvsState K V BK BV) (k : K) (row : KvsRow BV) (name : String)
    (hmiss : LruData.check_cached s.cache k = none)
    (hrow : alookup s.db (instK.serialize k) = some row)
    (hmm : ¬(row.valueSchemaId = info.value_id ∧
             instV.schemaVersion = row.valueSchemaVer))
    (hname : get_str_id_rev info row.valueSchemaId = Except.ok name)
    (hnomig : instV.can_migrate_from name row.valueSchemaVer = false) :
    (get_0 instK instV info false s k).1
        = Except.error "Could not migrate value to current schema version!" ∧
    (get_0 instK instV info true s k).1 = Except.ok none := by
  have hload : ∀ mand : Bool,
      load_value instK instV s.db k info info.value_id mand
        = if mand then
            Except.error "Could not migrate value to current schema version!"
          else Except.ok none := by
    intro mand
    unfold load_value
    simp only [hrow]
    rw [if_neg hmm]
    simp only [hname]
    rw [hnomig]
    cases mand <;> rfl
  constructor
  · show (s.cache.cached_async k (get_db instK instV info false s k)).1 = _
    have hdb : get_db instK instV info false s k
        = Except.error "Could not migrate value to current schema version!" := by
      show load_value instK instV s.db k info info.value_id (!false) = _
      rw [hload]
      rfl
    rw [hdb, cached_async_fst_of_check_none hmiss]
    rfl
  · show (s.cache.cached_async k (get_db instK instV info true s k)).1 = _
    have hdb : get_db instK instV info true s k = Except.ok none := by
      show load_value instK instV s.db k info info.value_id (!true) = _
      rw [hload]
      rfl
    rw [hdb, cached_async_fst_of_check_none hmiss]
    rfl

/-- Witness for C7: a row tagged with a stale schema identity
`(2, version 5)` against expected `(1, version 0)`, with no declared
migration. -/
theorem c7_mandatory_migration_split_witness :
    (LruData.check_cached kvs7.cache 3 = none ∧
     alookup kvs7.db (natSerInst.serialize 3)
       = some { value := 9, valueSchemaId := 2, valueSchemaVer := 5 } ∧
     ¬((2 : Nat) = info7.value_id ∧ natSerInst.schemaVersion = 5) ∧
     get_str_id_rev info7 2 = Except.ok "old" ∧
     natSerInst.can_migrate_from "old" 5 = false) ∧
    ((get_0 natSerInst natSerInst info7 false kvs7 3).1
      = Except.error "Could not migrate value to current schema version!" ∧
     (get_0 natSerInst natSerInst info7 true kvs7 3).1 = Except.ok none) :=
  ⟨⟨rfl, rfl, by decide, rfl, rfl⟩,
   c7_mandatory_migration_split natSerInst natSerInst info7 kvs7
     3 { value := 9, valueSchemaId := 2, valueSchemaVer := 5 } "old"
     rfl rfl (by decide) rfl rfl⟩

/-- C2: if applying a migration chain fails partway — a script errors, or
the scripts cannot carry the running version all the way to
`target_version` — then `execute_migration` returns an error and the
persisted database, in particular the tracked version for
`migration_id`, is unchanged: the whole exclusive transaction is rolled
back. -/
theorem c2_failed_migration_rolls_back {σ : Type} (st : MigrationManagerState)
    (db : MigrationDb σ) (m : MigrationData σ) (e : String)
    (h : (execute_migration st db m).2.1 = Except.error e) :
    (execute_migration st db m).2.2 = db ∧
    query_migrations_table (execute_migration st db m).2.2 m.is_transient
        m.migration_id
      = query_migrations_table db m.is_transient m.migration_id := by
  have hdb : (execute_migration st db m).2.2 = db := by
    unfold execute_migration at h ⊢
    rcases hr : run_scripts m.migration_id m.is_transient m.scripts
        ((query_migrations_table db m.is_transient m.migration_id).getD 0) db
      with e' | ⟨current, t⟩
    · simp only [hr]
    · simp only [hr] at h ⊢
      by_cases hc : m.target_version ≠ current
      · rw [if_pos hc]
      · rw [if_neg hc] at h
        simp at h
  exact ⟨hdb, by rw [hdb]⟩

/-- Witness for C2: the second script of `c2_m` fails after the first
succeeded inside the transaction; the persisted tracking table stays
empty. -/
theorem c2_failed_migration_rolls_back_witness :
    (execute_migration c2_st c2_db c2_m).2.1 = Except.error "script failed" ∧
    ((execute_migration c2_st c2_db c2_m).2.2 = c2_db ∧
     query_migrations_table (execute_migration c2_st c2_db c2_m).2.2
         c2_m.is_transient c2_m.migration_id
       = query_migrations_table c2_db c2_m.is_transient c2_m.migration_id) :=
  ⟨rfl, c2_failed_migration_rolls_back c2_st c2_db c2_m "script failed" rfl⟩

theorem run_scripts_eq_spec {σ : Type} (idv : String) (tr : Bool) :
    ∀ (scripts : List (MigrationScriptData σ)) (v : Nat) (t : MigrationDb σ),
      run_scripts idv tr scripts v t
        = match spec_apply_scripts idv tr (spec_selected_scripts scripts v).1 t
          with
          | Except.error e => Except.error e
          | Except.ok t' => Except.ok ((spec_selected_scripts scripts v).2, t') := by
  intro scripts
  induction scripts with
  | nil => intro v t; rfl
  | cons s rest ih =>
    intro v t
    by_cases hv : v = s.from_version
    · rw [run_scripts, spec_selected_scripts, if_pos hv, if_pos hv]
      rcases hs : s.script_data t.schema with e | sch
      · rw [spec_apply_scripts]
        simp only [hs]
      · rw [spec_apply_scripts]
        simp only [hs]
        rw [ih]
    · rw [run_scripts, spec_selected_scripts, if_neg hv, if_neg hv]
      exact ih v t

/-- C5: `execute_migration` ensures the tracking table exists (a no-op on
the always-present tracking maps), reads the tracked version for
`migration_id` defaulting to 0, and — inside one exclusive transaction —
applies in script-list order exactly those scripts whose `from` equals
the running version, setting the running version to each script's `to`
and persisting it after each; it commits if and only if the final running
version equals `target_version` and otherwise reports a fatal error with
the transaction rolled back.  Stated as equality with
`spec_execute_migration`, the select-then-apply reading of the spec's
words. -/
theorem c5_execute_migration_follows_spec {σ : Type} (st : MigrationManagerState)
    (db : MigrationDb σ) (m : MigrationData σ) :
    (execute_migration st db m).2 = spec_execute_migration db m := by
  unfold execute_migration spec_execute_migration
  simp only [run_scripts_eq_spec]
  rcases ha : spec_apply_scripts m.migration_id m.is_transient
      (spec_selected_scripts m.scripts
        ((query_migrations_table db m.is_transient m.migration_id).getD 0)).1 db
    with e | t
  · simp only [ha]
  · simp only [ha]
    by_cases hv : (spec_selected_scripts m.scripts
        ((query_migrations_table db m.is_transient m.migration_id).getD 0)).2
        = m.target_version
    · rw [if_neg (fun hh => hh hv.symm), if_pos hv]
    · rw [if_pos (fun hh => hv hh.symm), if_neg hv]

/-- An insert into a freshly created cache always lands (the first
proposed victim line of an all-empty slot vector is empty). -/
theorem check_cached_insert_cache_new {K V : Type} [DecidableEq K] {n : Nat}
    (hn : 0 < n) (vs : List Nat) (key : K) (value : V) (dr : Bool) :
    LruData.check_cached
        (LruData.insert_cache key value dr (LruData.new n vs)) key
      = some value := by
  have hmiss : alookup (LruData.new n vs : LruData K V).keyLookup key = none := rfl
  unfold LruData.insert_cache
  rw [LruData.try_insert_loop]
  simp only [try_insert_fixed_of_lookup_none dr hmiss]
  have hlt : ((LruData.new n vs : LruData K V).replace).1 < n :=
    LruData.replace_fst_lt _ hn
  have hline : ((LruData.new n vs : LruData K V).replace).2.line
      ((LruData.new n vs : LruData K V).replace).1 = none := by
    show ((LruData.new n vs : LruData K V).replace).2.cacheData.getD _ none = none
    rw [LruData.cacheData_replace]
    show (List.replicate n (none : Option (LruEntry K V))).getD _ none = none
    exact getD_replicate_of_lt none none hlt
  simp only [hline]
  rw [install_victim_empty_eq]
  have hlen : ((LruData.new n vs : LruData K V).replace).2.cacheData.length = n := by
    rw [LruData.cacheData_replace]
    show (List.replicate n (none : Option (LruEntry K V))).length = n
    simp
  unfold LruData.check_cached
  simp only [alookup_ainsert_self, LruData.line]
  rw [getD_set_self _ _ _ (by rw [hlen]; exact hlt)]
  simp

theorem intern_query_preserves {T B : Type} [DecidableEq T] [DecidableEq B]
    (ser : T → B) (h : HiveState T B) (v : T) :
    (intern_query ser h v).2.max_value = h.max_value ∧
    (intern_query ser h v).2.rows = h.rows := by
  unfold intern_query
  rcases hc : h.cache.cached_async v (Except.ok ((alookup h.rows (ser v)).getD 0))
    with ⟨r, c'⟩
  rcases r with e | nv
  · simp [hc]
  · simp [hc]

theorem intern_eq_hit {T B : Type} [DecidableEq T] [DecidableEq B]
    {ser : T → B} {h : HiveState T B} {value : T} {idv : Nat} {h1 : HiveState T B}
    (hq : intern_query ser h value = (idv, h1)) (hid : idv ≠ 0) :
    intern ser h value = (idv, h1) := by
  unfold intern
  simp only [hq]
  rw [if_neg hid]

theorem intern_eq_requery_hit {T B : Type} [DecidableEq T] [DecidableEq B]
    {ser : T → B} {h : HiveState T B} {value : T} {idv cur : Nat}
    {h1 h3 : HiveState T B}
    (hq : intern_query ser h value = (idv, h1)) (hid : idv = 0)
    (hq2 : intern_query ser
        { h1 with new_value_lock := h1.new_value_lock.lock_acquire value } value
      = (cur, h3)) (hcur : cur ≠ 0) :
    intern ser h value
      = (cur, { h3 with
                new_value_lock := h3.new_value_lock.lock_release value }) := by
  unfold intern
  simp only [hq]
  rw [if_pos hid]
  simp only [hq2]
  rw [if_pos hcur]

theorem intern_eq_insert {T B : Type} [DecidableEq T] [DecidableEq B]
    {ser : T → B} {h : HiveState T B} {value : T} {idv cur : Nat}
    {h1 h3 : HiveState T B}
    (hq : intern_query ser h value = (idv, h1)) (hid : idv = 0)
    (hq2 : intern_query ser
        { h1 with new_value_lock := h1.new_value_lock.lock_acquire value } value
      = (cur, h3)) (hcur : cur = 0) :
    intern ser h value
      = (h3.max_value,
         { hive_id := h3.hive_id
           rows := (ser value, h3.max_value) :: h3.rows
           cache := h3.cache.insert value h3.max_value
           rev_cache := h3.rev_cache
           new_value_lock := h3.new_value_lock.lock_release value
           max_value := h3.max_value + 1 }) := by
  unfold intern
  simp only [hq]
  rw [if_pos hid]
  simp only [hq2]
  rw [if_neg (fun hh => hh hcur)]

/-- C10: every ID the interner assigns or returns is at least 1.  The
hive counter is seeded at `max(existing id) + 1` by `from_db` (so at
least 1) and only ever incremented; `intern` never returns 0 and never
decreases the counter; and ID 0 is the not-yet-interned sentinel that
`intern_query` returns — and caches — on a lookup miss. -/
theorem c10_interner_ids_positive {T B : Type} [DecidableEq T] [DecidableEq B]
    (ser : T → B) (hive_id : Nat) (rows : List (B × Nat)) (cvs rvs : List Nat)
    (h : HiveState T B) (v v' : T) (hmv : 1 ≤ h.max_value)
    (hfresh : alookup rows (ser v') = none) :
    ((from_db hive_id rows cvs rvs : HiveState T B).max_value
        = maxIntId rows + 1 ∧
      1 ≤ (from_db hive_id rows cvs rvs : HiveState T B).max_value) ∧
    (1 ≤ (intern ser h v).1 ∧ 1 ≤ (intern ser h v).2.max_value ∧
      h.max_value ≤ (intern ser h v).2.max_value) ∧
    ((intern_query ser (from_db hive_id rows cvs rvs) v').1 = 0 ∧
      LruData.check_cached
        (intern_query ser (from_db hive_id rows cvs rvs) v').2.cache v'
        = some 0) := by
  refine ⟨⟨rfl, Nat.succ_le_succ (Nat.zero_le _)⟩, ?_, ?_⟩
  · -- the intern result and counter
    rcases hq : intern_query ser h v with ⟨idv, h1⟩
    have hm1 : h1.max_value = h.max_value := by
      have hp := (intern_query_preserves ser h v).1
      rw [hq] at hp
      exact hp
    by_cases hid : idv = 0
    · rcases hq2 : intern_query ser
          { h1 with new_value_lock := h1.new_value_lock.lock_acquire v } v
        with ⟨cur, h3⟩
      have hm3 : h3.max_value = h.max_value := by
        have hp := (intern_query_preserves ser
          { h1 with new_value_lock := h1.new_value_lock.lock_acquire v } v).1
        rw [hq2] at hp
        rw [hp]
        exact hm1
      by_cases hcur : cur = 0
      · rw [intern_eq_insert hq hid hq2 hcur]
        refine ⟨?_, ?_, ?_⟩
        · show 1 ≤ h3.max_value
          rw [hm3]; exact hmv
        · show 1 ≤ h3.max_value + 1
          exact Nat.succ_le_succ (Nat.zero_le _)
        · show h.max_value ≤ h3.max_value + 1
          rw [hm3]; exact Nat.le_succ _
      · rw [intern_eq_requery_hit hq hid hq2 hcur]
        refine ⟨Nat.one_le_iff_ne_zero.mpr hcur, ?_, ?_⟩
        · show 1 ≤ h3.max_value
          rw [hm3]; exact hmv
        · show h.max_value ≤ h3.max_value
          rw [hm3]
    · rw [intern_eq_hit hq hid]
      refine ⟨Nat.one_le_iff_ne_zero.mpr hid, ?_, ?_⟩
      · show 1 ≤ h1.max_value
        rw [hm1]; exact hmv
      · show h.max_value ≤ h1.max_value
        rw [hm1]
  · -- the sentinel on a fresh hive
    have hmiss2 : alookup
        (from_db hive_id rows cvs rvs : HiveState T B).cache.keyLookup v'
        = none := rfl
    have hrows2 : alookup (from_db hive_id rows cvs rvs : HiveState T B).rows
        (ser v') = none := hfresh
    have hcached : (from_db hive_id rows cvs rvs : HiveState T B).cache.cached_async
        v' (Except.ok ((alookup
            (from_db hive_id rows cvs rvs : HiveState T B).rows (ser v')).getD 0))
        = (Except.ok 0,
           LruData.insert_cache v' 0 false (LruData.new 512 cvs)) := by
      unfold LruData.cached_async LruData.cached
      rw [check_cached_of_lookup_none hmiss2, hrows2]
      rfl
    constructor
    · unfold intern_query
      simp only [hcached]
    · show LruData.check_cached (intern_query ser
        (from_db hive_id rows cvs rvs) v').2.cache v' = some 0
      unfold intern_query
      simp only [hcached]
      exact check_cached_insert_cache_new (by decide) cvs v' 0 false

/-- Witness for C10 on a fresh hive over `Nat` with the identity
serializer. -/
theorem c10_interner_ids_positive_witness :
    (1 ≤ (from_db 2 [] [] [] : HiveState Nat Nat).max_value ∧
     alookup ([] : List (Nat × Nat)) 8 = none) ∧
    (((from_db 2 [] [] [] : HiveState Nat Nat).max_value
        = maxIntId ([] : List (Nat × Nat)) + 1 ∧
      1 ≤ (from_db 2 [] [] [] : HiveState Nat Nat).max_value) ∧
     (1 ≤ (intern (fun b => b) (from_db 2 [] [] []) 7).1 ∧
      1 ≤ (intern (fun b => b) (from_db 2 [] [] []) 7).2.max_value ∧
      (from_db 2 [] [] [] : HiveState Nat Nat).max_value
        ≤ (intern (fun b => b) (from_db 2 [] [] []) 7).2.max_value) ∧
     ((intern_query (fun b => b) (from_db 2 [] [] []) 8).1 = 0 ∧
      LruData.check_cached
        (intern_query (fun b => b) (from_db 2 [] [] []) 8).2.cache 8
        = some 0)) :=
  ⟨⟨by decide, rfl⟩,
   c10_interner_ids_positive (fun b => b) 2 [] [] [] (from_db 2 [] [] []) 7 8
     (by decide) rfl⟩

/-- C6: the claim says `intern(v)` called concurrently from different
tasks yields exactly one ID for `v`, every call returning the same ID.
Counterexample: under schedule `c6_sched`, two tasks both interning value
7 on a fresh hive both pass the `LockSet` lock (its `entry.is_empty()`
check admits a second holder), both re-read the 0 sentinel, and allocate
two distinct IDs: task 0 returns 1 while task 1 is about to return 2,
and the table ends up with both `(7, 2)` and `(7, 1)`. -/
theorem c6_concurrent_intern_two_ids :
    (run_two 7 c6_sched c6_init).1 = InternPc.done 1 ∧
    (run_two 7 c6_sched c6_init).2.1 = InternPc.atRelease 2 ∧
    (run_two 7 c6_sched c6_init).2.2.rows = [(7, 2), (7, 1)] := by
  decide

end Sylphie
